import Mathlib

/-!
The iCalendar encoders of gpredict (`save-ical.c`).

A shallow embedding of the two encoders `save_pass_ical_exec` and
`save_passes_ical_exec` of `src/save-ical.c`, together with the file sink
`save_to_file`, and theorems about the text they build.

Modelling conventions.

* C strings are `String`; `g_strdup_printf("%s...", data, ...)` is `++`.
* `gdouble` is an IEEE-754 binary64 value, kept as sign, integer significand
  and binary exponent (value `(-1)^neg * mant * 2^exp`), with infinities and
  NaN.  Subtraction and multiplication are the exact operation followed by
  round-to-nearest-even to 53 bits.
* `printf` conversions `%f`, `%.0f`, `%6.2f` print the exact value of the
  double correctly rounded (half to even) to the requested number of decimals,
  as the C library does in the default rounding mode.
* The conversion `(guint) x` of a double is the value cut toward zero when that
  is representable in 32 bits; elsewhere ISO C leaves it undefined and the
  result is the one of the x86-64 build (reduction modulo `2^32`).
* `guint` arithmetic is arithmetic on `Nat` modulo `2^32`.
* What the encoders take from other translation units (`daynum_to_str`,
  `sat_cfg_get_bool`, the GLib channel calls) is a field of `Env`.
-/

namespace SaveIcal

/-! ## Doubles -/

/-- An IEEE-754 binary64 value: `finite neg mant exp` denotes
`(-1)^neg * mant * 2^exp`. -/
inductive gdouble where
  | finite (neg : Bool) (mant : Nat) (exp : Int)
  | inf (neg : Bool)
  | nan (neg : Bool)
  deriving DecidableEq, Repr

/-- Number of binary digits of `n`, by halving (`fuel` bounds the number of steps). -/
def bit_length_aux : Nat → Nat → Nat
  | 0, _ => 0
  | fuel + 1, n => if n = 0 then 0 else 1 + bit_length_aux fuel (n / 2)

/-- Number of binary digits of `n` (`0` for `0`). -/
def bit_length (n : Nat) : Nat := bit_length_aux n n

/-- Quotient `n / d` rounded to the nearest integer, ties to the even one. -/
def round_half_even (n d : Nat) : Nat :=
  let q := n / d
  let r := n % d
  if 2 * r < d then q
  else if d < 2 * r then q + 1
  else if q % 2 = 0 then q else q + 1

/-- The binary64 value nearest to `(-1)^neg * m * 2^e` (ties to even): the
significand is cut to 53 bits, the exponent is kept at or above `-1074`
(subnormals), and a result of magnitude `2^1024` or more is an infinity. -/
def round_binary64 (neg : Bool) (m : Nat) (e : Int) : gdouble :=
  if m = 0 then gdouble.finite neg 0 0
  else
    let e1 : Int := max (e + (bit_length m : Int) - 53) (-1074)
    if e1 ≤ e then
      if 1024 < e + (bit_length m : Int) then gdouble.inf neg
      else gdouble.finite neg m e
    else
      let q := round_half_even m (2 ^ (e1 - e).toNat)
      if 971 < e1 ∨ (e1 = 971 ∧ 2 ^ 53 ≤ q) then gdouble.inf neg
      else gdouble.finite neg q e1

/-- The integer `(-1)^neg * m`. -/
def signed (neg : Bool) (m : Nat) : Int := if neg then -(m : Int) else (m : Int)

/-- Binary64 subtraction `x - y`. -/
def gdouble.sub : gdouble → gdouble → gdouble
  | gdouble.nan s, _ => gdouble.nan s
  | _, gdouble.nan s => gdouble.nan s
  | gdouble.inf a, gdouble.inf b => if a = b then gdouble.nan true else gdouble.inf a
  | gdouble.inf a, gdouble.finite _ _ _ => gdouble.inf a
  | gdouble.finite _ _ _, gdouble.inf b => gdouble.inf (!b)
  | gdouble.finite n1 m1 e1, gdouble.finite n2 m2 e2 =>
    let e := min e1 e2
    let d : Int := signed n1 (m1 * 2 ^ (e1 - e).toNat) - signed n2 (m2 * 2 ^ (e2 - e).toNat)
    if d = 0 then gdouble.finite (n1 && !n2) 0 0
    else round_binary64 (decide (d < 0)) d.natAbs e

/-- Binary64 multiplication `x * y`. -/
def gdouble.mul : gdouble → gdouble → gdouble
  | gdouble.nan s, _ => gdouble.nan s
  | _, gdouble.nan s => gdouble.nan s
  | gdouble.inf a, gdouble.inf b => gdouble.inf (a != b)
  | gdouble.inf a, gdouble.finite n m _ => if m = 0 then gdouble.nan true else gdouble.inf (a != n)
  | gdouble.finite n m _, gdouble.inf b => if m = 0 then gdouble.nan true else gdouble.inf (n != b)
  | gdouble.finite n1 m1 e1, gdouble.finite n2 m2 e2 =>
    round_binary64 (n1 != n2) (m1 * m2) (e1 + e2)

/-- The comparison `x < y` of two doubles (false when either is a NaN). -/
def gdouble.lt : gdouble → gdouble → Bool
  | gdouble.nan _, _ => false
  | _, gdouble.nan _ => false
  | gdouble.inf a, gdouble.inf b => a && !b
  | gdouble.inf a, gdouble.finite _ _ _ => a
  | gdouble.finite _ _ _, gdouble.inf b => !b
  | gdouble.finite n1 m1 e1, gdouble.finite n2 m2 e2 =>
    let e := min e1 e2
    decide (signed n1 (m1 * 2 ^ (e1 - e).toNat) < signed n2 (m2 * 2 ^ (e2 - e).toNat))

/-- The comparison `x <= y` of two doubles (false when either is a NaN). -/
def gdouble.le : gdouble → gdouble → Bool
  | gdouble.nan _, _ => false
  | _, gdouble.nan _ => false
  | gdouble.inf a, gdouble.inf b => a || !b
  | gdouble.inf a, gdouble.finite _ _ _ => a
  | gdouble.finite _ _ _, gdouble.inf b => !b
  | gdouble.finite n1 m1 e1, gdouble.finite n2 m2 e2 =>
    let e := min e1 e2
    decide (signed n1 (m1 * 2 ^ (e1 - e).toNat) ≤ signed n2 (m2 * 2 ^ (e2 - e).toNat))

/-- The double with the value of the natural number `n` (exact below `2^53`). -/
def gdouble.ofNat (n : Nat) : gdouble := round_binary64 false n 0

/-- The double nearest to the fraction `n / d` (`d > 0`), as a decimal constant
is read: the quotient is taken with more than 64 binary digits and a sticky
last bit, then rounded. -/
def gdouble.ofFrac (n d : Nat) : gdouble :=
  let k := bit_length d + 64
  let q := (n * 2 ^ k) / d
  let sticky := if (n * 2 ^ k) % d = 0 then 0 else 1
  round_binary64 false (2 * q + sticky) (-(k : Int) - 1)

/-- The magnitude of a finite double cut to its integer part. -/
def trunc_magnitude (m : Nat) (e : Int) : Nat :=
  if 0 ≤ e then m * 2 ^ e.toNat else m / 2 ^ (-e).toNat

/-- The cast `(guint) x`.  ISO C defines it when the value cut toward zero is
representable in 32 bits, and then it is that value.  For the other values the
code goes on (there is no exit at the cast), and the result taken here is the
one of the x86-64 build: the double is converted to a 64-bit integer
(`cvttsd2si`) of which the low 32 bits are kept, so a value cut toward zero of
magnitude below `2^63` is reduced modulo `2^32`, and a NaN, an infinity or a
magnitude of `2^63` or more gives 0.  The result is never `none`. -/
def gdouble.to_guint : gdouble → Option Nat
  | gdouble.finite neg m e =>
    let t := trunc_magnitude m e
    if 2 ^ 63 ≤ t then some 0
    else if neg then some ((2 ^ 32 - t % 2 ^ 32) % 2 ^ 32)
    else some (t % 2 ^ 32)
  | _ => some 0

/-- The cast `(guint) x` is one that ISO C defines (6.3.1.4): `x` is finite and
its value cut toward zero is representable in 32 bits, that is, `x` lies
strictly between -1 and `2^32`. -/
def gdouble.guint_cast_defined : gdouble → Bool
  | gdouble.finite neg m e =>
    if neg then decide (trunc_magnitude m e = 0) else decide (trunc_magnitude m e < 2 ^ 32)
  | _ => false

/-! ## `printf` conversions -/

/-- The string `s` filled on the left with `c` up to `w` characters. -/
def pad_left (c : Char) (w : Nat) (s : String) : String :=
  String.mk (List.replicate (w - s.length) c) ++ s

/-- The magnitude `m * 2^e` times `10^k`, rounded to an integer (ties to even). -/
def scaled_decimal (m : Nat) (e : Int) (k : Nat) : Nat :=
  if 0 ≤ e then m * 2 ^ e.toNat * 10 ^ k
  else round_half_even (m * 10 ^ k) (2 ^ (-e).toNat)

/-- The digits of a magnitude already scaled by `10^k`: integer part, and for
`k > 0` a point and `k` decimals. -/
def decimal_digits (k : Nat) (N : Nat) : String :=
  if k = 0 then Nat.repr N
  else Nat.repr (N / 10 ^ k) ++ "." ++ pad_left '0' k (Nat.repr (N % 10 ^ k))

/-- The conversion `%.<k>f`. -/
def fmt_f (k : Nat) : gdouble → String
  | gdouble.nan neg => (if neg then "-" else "") ++ "nan"
  | gdouble.inf neg => (if neg then "-" else "") ++ "inf"
  | gdouble.finite neg m e =>
    (if neg then "-" else "") ++ decimal_digits k (scaled_decimal m e k)

/-- The conversion `%<w>.<k>f`: `%.<k>f` right-aligned in `w` columns. -/
def fmt_wf (w k : Nat) (x : gdouble) : String := pad_left ' ' w (fmt_f k x)

/-- The conversion `%d`. -/
def fmt_d (v : Int) : String :=
  if v < 0 then "-" ++ Nat.repr v.natAbs else Nat.repr v.toNat

/-- The conversion `%02d`: at least two columns, filled with zeros after the sign. -/
def fmt_02d (v : Int) : String :=
  if v < 0 then "-" ++ pad_left '0' 1 (Nat.repr v.natAbs)
  else pad_left '0' 2 (Nat.repr v.toNat)

/-- A `guint` handed to `%d` is read as a two's complement `int`. -/
def guint_as_int (u : Nat) : Int :=
  if u % 2 ^ 32 < 2 ^ 31 then ((u % 2 ^ 32 : Nat) : Int)
  else ((u % 2 ^ 32 : Nat) : Int) - 2 ^ 32

/-- Subtraction of two `guint`. -/
def guint_sub (a b : Nat) : Nat := (a % 2 ^ 32 + 2 ^ 32 - b % 2 ^ 32) % 2 ^ 32

/-- Multiplication of two `guint`. -/
def guint_mul (a b : Nat) : Nat := (a * b) % 2 ^ 32

/-! ## Data and environment -/

/-- The fields of `pass_t` (predict-tools.h) that the encoders read. -/
structure pass_t where
  aos : gdouble
  los : gdouble
  max_el : gdouble
  aos_az : gdouble
  los_az : gdouble
  orbit : Int

/-- The fields of `qth_t` that the encoders read. -/
structure qth_t where
  lat : gdouble
  lon : gdouble

/-- Levels of `sat_log_log` used in this file. -/
inductive sat_log_level where
  | SAT_LOG_LEVEL_ERROR
  | SAT_LOG_LEVEL_DEBUG
  deriving DecidableEq, Repr

/-- What the functions do to the outside world, in order. -/
inductive Act where
  | sat_log_log (level : sat_log_level) (msg : String)
  | g_io_channel_new_file (fname : String)
  | g_io_channel_write_chars (fname data : String)
  | error_dialog (msg : String)
  | g_io_channel_shutdown (fname : String)
  deriving DecidableEq, Repr

/-- What the encoders take from outside this file.
 * `use_local_time`: `sat_cfg_get_bool(SAT_CFG_BOOL_USE_LOCAL_TIME)`;
 * `daynum_to_str fmt t`: the text `daynum_to_str` (time-tools) leaves in `tbuff`;
 * `dir_separator`: `G_DIR_SEPARATOR_S`;
 * `new_file fname`: the error message of `g_io_channel_new_file`, if it fails;
 * `write_chars fname data`: the error message of `g_io_channel_write_chars`,
   or the count it reports. -/
structure Env where
  use_local_time : Bool
  daynum_to_str : String → gdouble → String
  dir_separator : String
  new_file : String → Option String
  write_chars : String → String → Except String Nat

/-- The only format selector the encoders know. -/
def SAVE_FORMAT_ICS : Int := 1

/-! ## The file sink -/

/-- The function `save_to_file`: create the file, write the text, report. -/
def save_to_file (env : Env) (fname data : String) : List Act :=
  match env.new_file fname with
  | some message =>
    [Act.g_io_channel_new_file fname,
     Act.sat_log_log sat_log_level.SAT_LOG_LEVEL_ERROR
       ("save_to_file: Could not create file " ++ fname ++ " (" ++ message ++ ")"),
     Act.error_dialog ("Could not create file " ++ fname ++ "\n\n" ++ message)]
  | none =>
    match env.write_chars fname data with
    | Except.error message =>
      [Act.g_io_channel_new_file fname,
       Act.g_io_channel_write_chars fname data,
       Act.sat_log_log sat_log_level.SAT_LOG_LEVEL_ERROR
         ("save_to_file: An error occurred while saving data to " ++ fname
           ++ " (" ++ message ++ ")"),
       Act.error_dialog ("An error occurred while saving data to " ++ fname
           ++ "\n\n" ++ message),
       Act.g_io_channel_shutdown fname]
    | Except.ok count =>
      [Act.g_io_channel_new_file fname,
       Act.g_io_channel_write_chars fname data,
       Act.sat_log_log sat_log_level.SAT_LOG_LEVEL_DEBUG
         ("save_to_file: Written " ++ fmt_d (count : Int) ++ " characters to " ++ fname),
       Act.g_io_channel_shutdown fname]

/-! ## The encoder for a list of passes -/

/-- The `for` loop of `save_passes_ical_exec`, started at index `i` with
`remaining = n - i` rounds to go; `data` is the text built so far.  A round
that would read past the list gives `none`, as would a `(guint)` cast without a
result. -/
def save_passes_ical_loop (env : Env) (timezone : String) (passes : List pass_t)
    (qth : qth_t) (sat : String) : Nat → Nat → String → Option String
  | 0, _, data => some data
  | remaining + 1, i, data =>
    let fmtstr := "%Y%m%dT%H%M%S"
    let data := data ++ "BEGIN:VEVENT\n"
    match passes[i]? with
    | none => none
    | some pass =>
      /- AOS -/
      let tbuff := env.daynum_to_str fmtstr pass.aos
      let data := data ++ "DTSTART" ++ timezone ++ tbuff ++ "\n"
      /- LOS -/
      let tbuff := env.daynum_to_str fmtstr pass.los
      let data := data ++ "DTEND" ++ timezone ++ tbuff ++ "\n"
      /- Summary with Max Elevation and Sat name -/
      let buff := data ++ "SUMMARY:" ++ sat ++ " [" ++ fmt_f 0 pass.max_el ++ "°]\n"
      let data := buff
      /- UID -/
      let tbuff := env.daynum_to_str "%Y%m%d%H" pass.aos
      let data := data ++ "UID:" ++ sat ++ fmt_d pass.orbit ++ tbuff ++ "@"
        ++ fmt_f 6 qth.lat ++ fmt_f 6 qth.lon ++ "\n"
      /- Duration: convert julian date to seconds -/
      match ((pass.los.sub pass.aos).mul (gdouble.ofNat 86400)).to_guint with
      | none => none
      | some s =>
        /- extract hours -/
        let h := s / 3600
        let s := guint_sub s (guint_mul 3600 h)
        /- extract minutes -/
        let m := s / 60
        let s := guint_sub s (guint_mul 60 m)
        let line := "Duration: " ++ fmt_02d (guint_as_int m) ++ ":"
          ++ fmt_02d (guint_as_int s) ++ "\\n"
        /- AOS Az -/
        let buff := line ++ "AOS Azimuth:  " ++ fmt_wf 6 2 pass.aos_az ++ "\\n"
        let line := buff
        /- LOS Az -/
        let buff := line ++ "LOS Azimuth:  " ++ fmt_wf 6 2 pass.los_az ++ "\\n"
        let line := buff
        let buff := data ++ "DESCRIPTION:" ++ line ++ "\n"
        let data := buff
        let buff := data ++ "END:VEVENT\n"
        let data := buff
        save_passes_ical_loop env timezone passes qth sat remaining (i + 1) data

/-- The text `data` that `save_passes_ical_exec` builds for the ICS format. -/
def save_passes_ical_data (env : Env) (passes : List pass_t) (qth : qth_t)
    (sat : String) : Option String :=
  /- determine time zone -/
  let loc := env.use_local_time
  let timezone := if loc then ":" else ";TZID=UTC:"
  /- header -/
  let data := "BEGIN:VCALENDAR\nVERSION:2.0\nCALSCALE:GREGORIAN\n"
  /- events -/
  let n := passes.length
  match save_passes_ical_loop env timezone passes qth sat n 0 data with
  | none => none
  | some data =>
    let buff := data ++ "END:VCALENDAR\n"
    some buff

/-- The function `save_passes_ical_exec`: the actions it performs, or `none`
when no text is built. -/
def save_passes_ical_exec (env : Env) (passes : List pass_t) (qth : qth_t)
    (savedir savefile : String) (format : Int) (sat : String) : Option (List Act) :=
  if format = SAVE_FORMAT_ICS then
    /- prepare full file name -/
    let fname := savedir ++ env.dir_separator ++ savefile ++ ".ics"
    match save_passes_ical_data env passes qth sat with
    | none => none
    | some data => some (save_to_file env fname data)
  else
    some [Act.sat_log_log sat_log_level.SAT_LOG_LEVEL_ERROR
      ("save_passes_ical_exec: Invalid file format: " ++ fmt_d format)]

/-! ## The encoder for one pass -/

/-- The text `data` that `save_pass_ical_exec` builds for the ICS format. -/
def save_pass_ical_data (env : Env) (pass : pass_t) (qth : qth_t)
    (sat : String) : Option String :=
  /- determine time zone -/
  let loc := env.use_local_time
  let timezone := if loc then ":" else ";TZID=UTC:"
  /- header -/
  let data := "BEGIN:VCALENDAR\nVERSION:2.0\nCALSCALE:GREGORIAN\n"
  /- events -/
  let fmtstr := "%Y%m%dT%H%M%S"
  let data := data ++ "BEGIN:VEVENT\n"
  /- AOS -/
  let tbuff := env.daynum_to_str fmtstr pass.aos
  let data := data ++ "DTSTART" ++ timezone ++ tbuff ++ "\n"
  /- LOS -/
  let tbuff := env.daynum_to_str fmtstr pass.los
  let data := data ++ "DTEND" ++ timezone ++ tbuff ++ "\n"
  /- Summary with Max Elevation and Sat name -/
  let buff := data ++ "SUMMARY:" ++ sat ++ " [" ++ fmt_f 0 pass.max_el ++ "°]\n"
  let data := buff
  /- UID -/
  let tbuff := env.daynum_to_str "%Y%m%d%H" pass.aos
  let data := data ++ "UID:" ++ sat ++ fmt_d pass.orbit ++ tbuff ++ "@"
    ++ fmt_f 6 qth.lat ++ fmt_f 6 qth.lon ++ "\n"
  /- Duration: convert julian date to seconds -/
  match ((pass.los.sub pass.aos).mul (gdouble.ofNat 86400)).to_guint with
  | none => none
  | some s =>
    /- extract hours -/
    let h := s / 3600
    let s := guint_sub s (guint_mul 3600 h)
    /- extract minutes -/
    let m := s / 60
    let s := guint_sub s (guint_mul 60 m)
    let line := "Duration: " ++ fmt_02d (guint_as_int m) ++ ":"
      ++ fmt_02d (guint_as_int s) ++ "\\n"
    /- AOS Az -/
    let buff := line ++ "AOS Azimuth:  " ++ fmt_wf 6 2 pass.aos_az ++ "\\n"
    let line := buff
    /- LOS Az -/
    let buff := line ++ "LOS Azimuth:  " ++ fmt_wf 6 2 pass.los_az ++ "\\n"
    let line := buff
    let buff := data ++ "DESCRIPTION:" ++ line ++ "\n"
    let data := buff
    let buff := data ++ "END:VEVENT\n"
    let data := buff
    let buff := data ++ "END:VCALENDAR\n"
    some buff

/-- The function `save_pass_ical_exec`: the actions it performs, or `none`
when no text is built. -/
def save_pass_ical_exec (env : Env) (pass : pass_t) (qth : qth_t)
    (savedir savefile : String) (format : Int) (sat : String) : Option (List Act) :=
  if format = SAVE_FORMAT_ICS then
    /- prepare full file name -/
    let fname := savedir ++ env.dir_separator ++ savefile ++ ".ics"
    match save_pass_ical_data env pass qth sat with
    | none => none
    | some data => some (save_to_file env fname data)
  else
    some [Act.sat_log_log sat_log_level.SAT_LOG_LEVEL_ERROR
      ("save_pass_ical_exec: Invalid file format: " ++ fmt_d format)]

/-! ## Vocabulary of the statements -/

/-- The three header lines of the calendar. -/
def ical_header : String := "BEGIN:VCALENDAR\nVERSION:2.0\nCALSCALE:GREGORIAN\n"

/-- The closing line of the calendar. -/
def ical_footer : String := "END:VCALENDAR\n"

/-- The value of the variable `timezone` of both encoders. -/
def timezone_part (env : Env) : String :=
  if env.use_local_time then ":" else ";TZID=UTC:"

/-- The second count `(guint) ((pass->los - pass->aos)*86400)` of both encoders. -/
def duration_seconds (pass : pass_t) : Option Nat :=
  ((pass.los.sub pass.aos).mul (gdouble.ofNat 86400)).to_guint

/-- The text that one round of the loop of `save_passes_ical_exec` adds for
`pass`: the round run on the one-element list, from the empty text. -/
def vevent_block (env : Env) (qth : qth_t) (sat : String) (pass : pass_t) : Option String :=
  save_passes_ical_loop env (timezone_part env) [pass] qth sat 1 0 ""

/-- The `DTSTART` line, without its line break. -/
def dtstart_line (env : Env) (pass : pass_t) : String :=
  "DTSTART" ++ timezone_part env ++ env.daynum_to_str "%Y%m%dT%H%M%S" pass.aos

/-- The `DTEND` line, without its line break. -/
def dtend_line (env : Env) (pass : pass_t) : String :=
  "DTEND" ++ timezone_part env ++ env.daynum_to_str "%Y%m%dT%H%M%S" pass.los

/-- The `SUMMARY` line, without its line break. -/
def summary_line (sat : String) (pass : pass_t) : String :=
  "SUMMARY:" ++ sat ++ " [" ++ fmt_f 0 pass.max_el ++ "°]"

/-- The `UID` line, without its line break. -/
def uid_line (env : Env) (qth : qth_t) (sat : String) (pass : pass_t) : String :=
  "UID:" ++ sat ++ fmt_d pass.orbit ++ env.daynum_to_str "%Y%m%d%H" pass.aos ++ "@"
    ++ fmt_f 6 qth.lat ++ fmt_f 6 qth.lon

/-- The `DESCRIPTION` line of the specification for a pass of `T` whole
seconds, without its line break: minutes are `floor(T / 60) mod 60`, seconds
are `T mod 60`, and each of the three parts ends with a backslash and an `n`. -/
def description_line (pass : pass_t) (T : Nat) : String :=
  "DESCRIPTION:" ++ "Duration: " ++ fmt_02d (((T / 60) % 60 : Nat) : Int) ++ ":"
    ++ fmt_02d ((T % 60 : Nat) : Int) ++ "\\n"
    ++ "AOS Azimuth:  " ++ fmt_wf 6 2 pass.aos_az ++ "\\n"
    ++ "LOS Azimuth:  " ++ fmt_wf 6 2 pass.los_az ++ "\\n"

/-- The seven lines of a `VEVENT` block in the order of section 6 of the
specification, for a pass of `T` whole seconds. -/
def event_lines (env : Env) (qth : qth_t) (sat : String) (pass : pass_t) (T : Nat) :
    List String :=
  ["BEGIN:VEVENT", dtstart_line env pass, dtend_line env pass, summary_line sat pass,
   uid_line env qth sat pass, description_line pass T, "END:VEVENT"]

/-- The seven lines of a `VEVENT` block as one text, a line break after each. -/
def event_text (env : Env) (qth : qth_t) (sat : String) (pass : pass_t) (T : Nat) : String :=
  "BEGIN:VEVENT\n" ++ dtstart_line env pass ++ "\n" ++ dtend_line env pass ++ "\n"
    ++ summary_line sat pass ++ "\n" ++ uid_line env qth sat pass ++ "\n"
    ++ description_line pass T ++ "\n" ++ "END:VEVENT\n"

/-- The characters of a text cut into lines: a line break ends a line, and
what follows the last line break, if anything, is a last line. -/
def lines_of_chars : List Char → List (List Char)
  | [] => []
  | c :: cs =>
    if c = '\n' then [] :: lines_of_chars cs
    else
      match lines_of_chars cs with
      | [] => [[c]]
      | l :: ls => (c :: l) :: ls

/-- The lines of a text. -/
def text_lines (s : String) : List String := (lines_of_chars s.data).map String.mk

/-- The text holds a line break. -/
def has_line_break (s : String) : Prop := '\n' ∈ s.data

instance (s : String) : Decidable (has_line_break s) := by
  unfold has_line_break; infer_instance

/-- The lines `ls` written out, a line break after each. -/
def unlines (ls : List String) : String := String.join (ls.map (fun l => l ++ "\n"))

/-- The number `n` below 100 written with two decimal digits, a leading zero
included. -/
def two_digits (n : Nat) : String := String.mk [Nat.digitChar (n / 10), Nat.digitChar (n % 10)]

/-- The first five lines of a `VEVENT` block, up to and with the `UID` line. -/
def event_head (env : Env) (qth : qth_t) (sat : String) (pass : pass_t) : String :=
  "BEGIN:VEVENT\n" ++ dtstart_line env pass ++ "\n" ++ dtend_line env pass ++ "\n"
    ++ summary_line sat pass ++ "\n" ++ uid_line env qth sat pass ++ "\n"

/-- An azimuth part as the specification words it: the label, a colon, exactly
two spaces, then the azimuth with two fractional digits. -/
def azimuth_part_as_claimed (label : String) (az : gdouble) : String :=
  label ++ ":" ++ "  " ++ fmt_f 2 az

/-- The lines of a text hold each of the four markers exactly once, the first
line is `BEGIN:VCALENDAR`, the last line is `END:VCALENDAR`, and `BEGIN:VEVENT`
comes before `END:VEVENT`. -/
def one_event_nested (doc : String) : Prop :=
  (text_lines doc).count "BEGIN:VCALENDAR" = 1
  ∧ (text_lines doc).count "BEGIN:VEVENT" = 1
  ∧ (text_lines doc).count "END:VEVENT" = 1
  ∧ (text_lines doc).count "END:VCALENDAR" = 1
  ∧ (text_lines doc).head? = some "BEGIN:VCALENDAR"
  ∧ (text_lines doc).getLast? = some "END:VCALENDAR"
  ∧ (text_lines doc).indexOf "BEGIN:VEVENT" < (text_lines doc).indexOf "END:VEVENT"

instance (doc : String) : Decidable (one_event_nested doc) := by
  unfold one_event_nested; infer_instance

/-! ## Sample inputs -/

/-- A sample environment: UTC, `/` as separator, a file system on which
creating and writing succeed, and time stamps for the three instants of the
sample passes (day 0 stands for noon of 1 January 2024). -/
def sample_env : Env :=
  { use_local_time := false
    daynum_to_str := fun fmt t =>
      if fmt = "%Y%m%d%H" then "2024010112"
      else if t = gdouble.ofNat 0 then "20240101T120000"
      else if t = gdouble.ofFrac 1 1440 then "20240101T120100"
      else "20240101T120200"
    dir_separator := "/"
    new_file := fun _ => none
    write_chars := fun _ data => Except.ok data.length }

/-- A sample pass: one minute long (`aos = 0.0`, `los = 1/1440`), maximum
elevation 45.6, azimuths 45.0 and 310.5, orbit 1234. -/
def sample_pass : pass_t :=
  { aos := gdouble.ofNat 0
    los := gdouble.ofFrac 1 1440
    max_el := gdouble.ofFrac 456 10
    aos_az := gdouble.ofNat 45
    los_az := gdouble.ofFrac 3105 10
    orbit := 1234 }

/-- A second sample pass: same orbit and AOS as `sample_pass`, but twice as
long, with another maximum elevation and other azimuths. -/
def sample_pass_other : pass_t :=
  { aos := gdouble.ofNat 0
    los := gdouble.ofFrac 1 720
    max_el := gdouble.ofNat 10
    aos_az := gdouble.ofNat 270
    los_az := gdouble.ofNat 90
    orbit := 1234 }

/-- A sample pass of an hour and a half (`los - aos = 1/16` day, 5400 seconds). -/
def sample_pass_long : pass_t :=
  { aos := gdouble.ofNat 0
    los := gdouble.ofFrac 1 16
    max_el := gdouble.ofNat 10
    aos_az := gdouble.ofNat 270
    los_az := gdouble.ofNat 90
    orbit := 1235 }

/-- A sample observer at 55.6 N, 12.3 E. -/
def sample_qth : qth_t := { lat := gdouble.ofFrac 556 10, lon := gdouble.ofFrac 123 10 }

/-- A sample label of 80 characters, longer than the 75 octets at which a
folding encoder would break a line. -/
def sample_long_label : String := String.mk (List.replicate 80 'A')

/-- The text for `sample_pass`, `sample_qth` and the label `ISS` in `sample_env`. -/
def sample_document : String :=
  "BEGIN:VCALENDAR\nVERSION:2.0\nCALSCALE:GREGORIAN\nBEGIN:VEVENT\nDTSTART;TZID=UTC:20240101T120000\nDTEND;TZID=UTC:20240101T120100\nSUMMARY:ISS [46°]\nUID:ISS12342024010112@55.60000012.300000\nDESCRIPTION:Duration: 01:00\\nAOS Azimuth:   45.00\\nLOS Azimuth:  310.50\\n\nEND:VEVENT\nEND:VCALENDAR\n"

/-! ## Vocabulary and samples for degenerate passes and for the file sink -/

/-- The product `(pass->los - pass->aos)*86400` that both encoders cast to `guint`. -/
def duration_product (pass : pass_t) : gdouble :=
  (pass.los.sub pass.aos).mul (gdouble.ofNat 86400)

/-- The double is finite and lies strictly between -1 and 1: cut toward zero
it is 0. -/
def gdouble.truncates_to_zero : gdouble → Bool
  | gdouble.finite _ m e => decide (trunc_magnitude m e = 0)
  | _ => false

/-- The name under which both encoders save: `savedir`, the separator,
`savefile` and `.ics`. -/
def ics_file_name (env : Env) (savedir savefile : String) : String :=
  savedir ++ env.dir_separator ++ savefile ++ ".ics"

/-- A sample pass that ends a minute before it starts (`aos = 1/1440`, `los = 0.0`). -/
def sample_pass_reversed : pass_t :=
  { aos := gdouble.ofFrac 1 1440
    los := gdouble.ofNat 0
    max_el := gdouble.ofFrac 456 10
    aos_az := gdouble.ofNat 45
    los_az := gdouble.ofFrac 3105 10
    orbit := 1234 }

/-- A sample pass of no length (`aos = los = 1/1440`). -/
def sample_pass_instant : pass_t :=
  { aos := gdouble.ofFrac 1 1440
    los := gdouble.ofFrac 1 1440
    max_el := gdouble.ofFrac 456 10
    aos_az := gdouble.ofNat 45
    los_az := gdouble.ofFrac 3105 10
    orbit := 1234 }

/-- A sample pass that ends half a second before it starts (`aos = 1/172800`,
`los = 0.0`). -/
def sample_pass_half_second_back : pass_t :=
  { aos := gdouble.ofFrac 1 172800
    los := gdouble.ofNat 0
    max_el := gdouble.ofFrac 456 10
    aos_az := gdouble.ofNat 45
    los_az := gdouble.ofFrac 3105 10
    orbit := 1234 }

/-- The sample environment on a file system where no file can be created. -/
def sample_env_create_fails : Env :=
  { sample_env with new_file := fun _ => some "Permission denied" }

/-- The sample environment on a file system where files are created and
writing fails. -/
def sample_env_write_fails : Env :=
  { sample_env with write_chars := fun _ _ => Except.error "No space left on device" }

/-! ## The values of doubles -/

/-- The rational value of a finite double (0 for an infinity or a NaN). -/
def gdouble.value : gdouble → ℚ
  | gdouble.finite neg m e => (if neg then -1 else 1) * (m : ℚ) * (2 : ℚ) ^ e
  | _ => 0

/-- The rational `q` is the value of a finite binary64 number: its magnitude is
`m * 2^e` with a significand below `2^53` and an exponent from -1074 to 971. -/
def is_binary64 (q : ℚ) : Prop :=
  ∃ (m : Nat) (e : Int), m < 2 ^ 53 ∧ -1074 ≤ e ∧ e ≤ 971 ∧ |q| = (m : ℚ) * (2 : ℚ) ^ e

/-- The rational `y` is a binary64 value nearest to `x`: no binary64 value is
closer to `x`. -/
def nearest_binary64 (x y : ℚ) : Prop :=
  is_binary64 y ∧ ∀ z : ℚ, is_binary64 z → |y - x| ≤ |z - x|

/-- A sample pass given by Julian dates: `aos = 2460000.5` and `los` the double
nearest to `aos + 612.7/86400`, so a pass of a little less than 612.7 seconds. -/
def sample_pass_julian : pass_t :=
  { aos := gdouble.ofFrac 4920001 2
    los := gdouble.ofFrac 2125440438127 864000
    max_el := gdouble.ofFrac 456 10
    aos_az := gdouble.ofNat 45
    los_az := gdouble.ofFrac 3105 10
    orbit := 1234 }

/-- The double is finite: neither an infinity nor a NaN. -/
def gdouble.is_finite : gdouble → Bool
  | gdouble.finite _ _ _ => true
  | _ => false

/-! ## Lemmas on texts -/

theorem option_map_congr {α β : Type} {f g : α → β} (h : ∀ a, f a = g a) (x : Option α) :
    x.map f = x.map g := by
  cases x with
  | none => rfl
  | some a => simp [h a]

theorem join_cons (b : String) (bs : List String) :
    String.join (b :: bs) = b ++ String.join bs := by
  simp [String.join_eq, String.ext_iff]

theorem join_nil : String.join [] = "" := rfl

theorem join_append (as bs : List String) :
    String.join (as ++ bs) = String.join as ++ String.join bs := by
  simp [String.join_eq, String.ext_iff]

theorem unlines_cons (l : String) (ls : List String) :
    unlines (l :: ls) = l ++ "\n" ++ unlines ls := by
  simp [unlines, join_cons]

theorem unlines_nil : unlines [] = "" := rfl

theorem unlines_append (as bs : List String) : unlines (as ++ bs) = unlines as ++ unlines bs := by
  simp [unlines, join_append]

theorem has_line_break_append (a b : String) :
    has_line_break (a ++ b) ↔ has_line_break a ∨ has_line_break b := by
  simp [has_line_break]

theorem lines_of_chars_line (l rest : List Char) (h : '\n' ∉ l) :
    lines_of_chars (l ++ '\n' :: rest) = l :: lines_of_chars rest := by
  induction l with
  | nil => simp [lines_of_chars]
  | cons c cs ih =>
    have hc : c ≠ '\n' := fun e => h (by simp [e])
    have hcs : '\n' ∉ cs := fun e => h (by simp [e])
    simp [lines_of_chars, hc, ih hcs]

theorem text_lines_line (l rest : String) (h : ¬ has_line_break l) :
    text_lines (l ++ "\n" ++ rest) = l :: text_lines rest := by
  unfold text_lines
  have e : (l ++ "\n" ++ rest).data = l.data ++ '\n' :: rest.data := by simp
  rw [e, lines_of_chars_line _ _ h]
  rfl

theorem text_lines_unlines (ls : List String) (rest : String)
    (h : ∀ l ∈ ls, ¬ has_line_break l) :
    text_lines (unlines ls ++ rest) = ls ++ text_lines rest := by
  induction ls with
  | nil => simp [unlines_nil, String.ext_iff, text_lines]
  | cons l ls ih =>
    rw [unlines_cons, String.append_assoc, text_lines_line _ _ (h l (by simp)),
      ih (fun x hx => h x (by simp [hx]))]
    rfl

theorem text_lines_empty : text_lines "" = [] := rfl

/-! ## The `printf` conversions print no line break -/

theorem digitChar_ne_newline (d : Nat) : Nat.digitChar d ≠ '\n' := by
  by_cases h : d < 16
  · interval_cases d <;> decide
  · have e : Nat.digitChar d = '*' := by
      unfold Nat.digitChar
      repeat rw [if_neg (by omega)]
    rw [e]
    decide

theorem toDigitsCore_no_newline (b : Nat) :
    ∀ (fuel n : Nat) (ds : List Char), '\n' ∉ ds → '\n' ∉ Nat.toDigitsCore b fuel n ds := by
  intro fuel
  induction fuel with
  | zero => intro n ds h; simpa [Nat.toDigitsCore] using h
  | succ f ih =>
    intro n ds h
    have hd : '\n' ∉ Nat.digitChar (n % b) :: ds := by
      intro hmem
      rcases List.mem_cons.mp hmem with h1 | h1
      · exact digitChar_ne_newline _ h1.symm
      · exact h h1
    rw [Nat.toDigitsCore]
    split
    · exact hd
    · exact ih _ _ hd

theorem repr_no_line_break (n : Nat) : ¬ has_line_break (Nat.repr n) := by
  unfold has_line_break Nat.repr Nat.toDigits
  exact toDigitsCore_no_newline 10 _ _ _ (by simp)

theorem pad_left_no_line_break (c : Char) (w : Nat) (s : String) (hc : c ≠ '\n')
    (hs : ¬ has_line_break s) : ¬ has_line_break (pad_left c w s) := by
  unfold pad_left
  rw [has_line_break_append]
  rintro (h | h)
  · simp only [has_line_break, List.mem_replicate] at h
    exact hc h.2.symm
  · exact hs h

theorem decimal_digits_no_line_break (k N : Nat) : ¬ has_line_break (decimal_digits k N) := by
  unfold decimal_digits
  split
  · exact repr_no_line_break _
  · rw [has_line_break_append, has_line_break_append]
    rintro ((h | h) | h)
    · exact repr_no_line_break _ h
    · revert h; decide
    · exact pad_left_no_line_break _ _ _ (by decide) (repr_no_line_break _) h

theorem fmt_f_no_line_break (k : Nat) (x : gdouble) : ¬ has_line_break (fmt_f k x) := by
  cases x with
  | finite neg m e =>
    unfold fmt_f
    rw [has_line_break_append]
    rintro (h | h)
    · cases neg <;> revert h <;> decide
    · exact decimal_digits_no_line_break _ _ h
  | inf neg => cases neg <;> simp only [fmt_f] <;> decide
  | nan neg => cases neg <;> simp only [fmt_f] <;> decide

theorem fmt_wf_no_line_break (w k : Nat) (x : gdouble) : ¬ has_line_break (fmt_wf w k x) :=
  pad_left_no_line_break _ _ _ (by decide) (fmt_f_no_line_break k x)

theorem fmt_d_no_line_break (v : Int) : ¬ has_line_break (fmt_d v) := by
  unfold fmt_d
  split
  · rw [has_line_break_append]
    rintro (h | h)
    · revert h; decide
    · exact repr_no_line_break _ h
  · exact repr_no_line_break _

theorem fmt_02d_no_line_break (v : Int) : ¬ has_line_break (fmt_02d v) := by
  unfold fmt_02d
  split
  · rw [has_line_break_append]
    rintro (h | h)
    · revert h; decide
    · exact pad_left_no_line_break _ _ _ (by decide) (repr_no_line_break _) h
  · exact pad_left_no_line_break _ _ _ (by decide) (repr_no_line_break _)

theorem timezone_part_no_line_break (env : Env) : ¬ has_line_break (timezone_part env) := by
  unfold timezone_part
  cases env.use_local_time <;> decide

/-! ## Rounding -/

/-- The result of `round_half_even` is within half a unit of the quotient, and
is even when the quotient lies exactly halfway. -/
theorem round_half_even_spec (n d : Nat) (hd : 0 < d) :
    2 * n ≤ 2 * (d * round_half_even n d) + d
    ∧ 2 * (d * round_half_even n d) ≤ 2 * n + d
    ∧ ((2 * n = 2 * (d * round_half_even n d) + d ∨ 2 * (d * round_half_even n d) = 2 * n + d)
        → round_half_even n d % 2 = 0) := by
  have hdiv : d * (n / d) + n % d = n := Nat.div_add_mod n d
  have hmod : n % d < d := Nat.mod_lt n hd
  unfold round_half_even
  dsimp only
  generalize n / d = q at hdiv ⊢
  generalize n % d = r at hdiv hmod ⊢
  have e1 : d * (q + 1) = d * q + d := by ring
  split_ifs with h1 h2 h3
  · refine ⟨by omega, by omega, ?_⟩
    rintro (h | h) <;> omega
  · rw [e1]
    refine ⟨by omega, by omega, ?_⟩
    rintro (h | h) <;> omega
  · exact ⟨by omega, by omega, fun _ => h3⟩
  · rw [e1]
    refine ⟨by omega, by omega, fun _ => by omega⟩

/-- The value printed by `%.<k>f` is the value of the double times `10^k`
rounded to a nearest integer, the even one at a tie. -/
theorem scaled_decimal_nearest (m : Nat) (e : Int) (k : Nat) :
    |(m : ℚ) * (2 : ℚ) ^ e * (10 : ℚ) ^ k - (scaled_decimal m e k : ℚ)| ≤ 1 / 2
    ∧ (|(m : ℚ) * (2 : ℚ) ^ e * (10 : ℚ) ^ k - (scaled_decimal m e k : ℚ)| = 1 / 2
        → scaled_decimal m e k % 2 = 0) := by
  unfold scaled_decimal
  split_ifs with he
  · have e2 : (2 : ℚ) ^ e = (2 : ℚ) ^ e.toNat := by
      conv_lhs => rw [← Int.toNat_of_nonneg he]
      exact zpow_natCast 2 e.toNat
    have e0 : (m : ℚ) * (2 : ℚ) ^ e * (10 : ℚ) ^ k
        - ((m * 2 ^ e.toNat * 10 ^ k : Nat) : ℚ) = 0 := by
      rw [e2]; push_cast; ring
    rw [e0]
    norm_num
  · have hneg : e < 0 := not_le.mp he
    set d : Nat := 2 ^ (-e).toNat with hd
    have hdpos : 0 < d := by positivity
    have hdq : (0 : ℚ) < (d : ℚ) := by exact_mod_cast hdpos
    have e2 : (2 : ℚ) ^ e = 1 / (d : ℚ) := by
      have : e = -(((-e).toNat : Nat) : Int) := by
        rw [Int.toNat_of_nonneg (by omega)]; ring
      conv_lhs => rw [this]
      rw [zpow_neg, zpow_natCast, hd]
      push_cast
      rw [one_div]
    obtain ⟨s1, s2, s3⟩ := round_half_even_spec (m * 10 ^ k) d hdpos
    set R : Nat := round_half_even (m * 10 ^ k) d with hR
    have q1 : (2 : ℚ) * ((m : ℚ) * (10 : ℚ) ^ k) ≤ 2 * ((d : ℚ) * (R : ℚ)) + (d : ℚ) := by
      exact_mod_cast s1
    have q2 : (2 : ℚ) * ((d : ℚ) * (R : ℚ)) ≤ 2 * ((m : ℚ) * (10 : ℚ) ^ k) + (d : ℚ) := by
      exact_mod_cast s2
    have ex : (m : ℚ) * (2 : ℚ) ^ e * (10 : ℚ) ^ k - (R : ℚ)
        = ((m : ℚ) * (10 : ℚ) ^ k - (d : ℚ) * (R : ℚ)) / (d : ℚ) := by
      rw [e2]; field_simp
    rw [ex]
    constructor
    · rw [abs_le]
      constructor
      · rw [le_div_iff₀ hdq]; linarith
      · rw [div_le_iff₀ hdq]; linarith
    · intro hab
      apply s3
      rw [abs_div, abs_of_pos hdq, div_eq_iff (ne_of_gt hdq)] at hab
      rcases abs_cases ((m : ℚ) * (10 : ℚ) ^ k - (d : ℚ) * (R : ℚ)) with ⟨h1, _⟩ | ⟨h1, _⟩
      · left
        have : (2 : ℚ) * ((m : ℚ) * (10 : ℚ) ^ k) = 2 * ((d : ℚ) * (R : ℚ)) + (d : ℚ) := by
          linarith
        exact_mod_cast this
      · right
        have : (2 : ℚ) * ((d : ℚ) * (R : ℚ)) = 2 * ((m : ℚ) * (10 : ℚ) ^ k) + (d : ℚ) := by
          linarith
        exact_mod_cast this

/-! ## Subtraction and multiplication round to a nearest double -/

theorem bit_length_aux_zero (fuel : Nat) : bit_length_aux fuel 0 = 0 := by
  cases fuel <;> simp [bit_length_aux]

/-- The number of binary digits of a positive number `n` is `k + 1` with
`2^k <= n < 2^(k+1)`. -/
theorem bit_length_aux_spec : ∀ (fuel n : Nat), n ≤ fuel → 0 < n →
    ∃ k, bit_length_aux fuel n = k + 1 ∧ 2 ^ k ≤ n ∧ n < 2 ^ (k + 1) := by
  intro fuel
  induction fuel with
  | zero => intro n h1 h2; omega
  | succ f ih =>
    intro n h1 h2
    have hn : n ≠ 0 := by omega
    rw [bit_length_aux, if_neg hn]
    by_cases h : n / 2 = 0
    · refine ⟨0, ?_, ?_, ?_⟩
      · rw [h, bit_length_aux_zero]
      · simpa using h2
      · have : n < 2 := by omega
        simpa using this
    · obtain ⟨k, hk, hlo, hhi⟩ := ih (n / 2) (by omega) (by omega)
      refine ⟨k + 1, by rw [hk]; ring, ?_, ?_⟩
      · rw [pow_succ]; omega
      · rw [pow_succ] at hhi ⊢; omega

theorem bit_length_spec (n : Nat) (h : 0 < n) :
    ∃ k, bit_length n = k + 1 ∧ 2 ^ k ≤ n ∧ n < 2 ^ (k + 1) :=
  bit_length_aux_spec n n (le_refl n) h

/-- The result of `round_half_even` is an integer nearest to the quotient. -/
theorem round_half_even_nearest (n d : Nat) (hd : 0 < d) (k : Int) :
    |((round_half_even n d : Nat) : ℚ) - (n : ℚ) / (d : ℚ)|
      ≤ |((k : Int) : ℚ) - (n : ℚ) / (d : ℚ)| := by
  obtain ⟨s1, s2, _⟩ := round_half_even_spec n d hd
  set q : Nat := round_half_even n d with hq
  have hdq : (0 : ℚ) < (d : ℚ) := by exact_mod_cast hd
  have q1 : (2 : ℚ) * (n : ℚ) ≤ 2 * ((d : ℚ) * (q : ℚ)) + (d : ℚ) := by exact_mod_cast s1
  have q2 : (2 : ℚ) * ((d : ℚ) * (q : ℚ)) ≤ 2 * (n : ℚ) + (d : ℚ) := by exact_mod_cast s2
  have er : (n : ℚ) = (n : ℚ) / (d : ℚ) * (d : ℚ) := (div_mul_cancel₀ _ (ne_of_gt hdq)).symm
  have hhalf : |(q : ℚ) - (n : ℚ) / (d : ℚ)| ≤ 1 / 2 := by
    rw [abs_le]
    constructor
    · by_contra hc
      push_neg at hc
      have := mul_lt_mul_of_pos_right hc hdq
      linarith
    · by_contra hc
      push_neg at hc
      have := mul_lt_mul_of_pos_right hc hdq
      linarith
  by_cases hk : k = (q : Int)
  · rw [hk]; simp
  · have h1 : (1 : ℚ) ≤ |((k : Int) : ℚ) - (q : ℚ)| := by
      have : (1 : Int) ≤ |k - (q : Int)| := Int.one_le_abs (sub_ne_zero.mpr hk)
      have h2 : ((1 : Int) : ℚ) ≤ ((|k - (q : Int)| : Int) : ℚ) := by exact_mod_cast this
      simpa using h2
    have h3 : |((k : Int) : ℚ) - (q : ℚ)|
        ≤ |((k : Int) : ℚ) - (n : ℚ) / (d : ℚ)| + |(q : ℚ) - (n : ℚ) / (d : ℚ)| := by
      have := abs_sub_le ((k : Int) : ℚ) ((n : ℚ) / (d : ℚ)) (q : ℚ)
      rw [abs_sub_comm ((n : ℚ) / (d : ℚ)) (q : ℚ)] at this
      exact this
    linarith
theorem two_zpow_add (a b : Int) : (2 : ℚ) ^ (a + b) = (2 : ℚ) ^ a * (2 : ℚ) ^ b :=
  zpow_add₀ (by norm_num) a b

theorem two_zpow_nat (n : Nat) : (2 : ℚ) ^ ((n : Nat) : Int) = ((2 ^ n : Nat) : ℚ) := by
  rw [zpow_natCast]; push_cast; rfl

theorem two_zpow_pos (a : Int) : (0 : ℚ) < (2 : ℚ) ^ a := by positivity

theorem two_zpow_mono {a b : Int} (h : a ≤ b) : (2 : ℚ) ^ a ≤ (2 : ℚ) ^ b :=
  zpow_le_zpow_right₀ (by norm_num) h

/-- A magnitude `m * 2^e` whose digits fit in 53 bits above the exponent `e1`
is a binary64 value. -/
theorem is_binary64_exact (m k : Nat) (e e1 : Int) (hhi : m < 2 ^ (k + 1)) (h1 : e1 ≤ e)
    (h2 : e + (k + 1) - 53 ≤ e1) (h3 : -1074 ≤ e1) (h4 : e1 ≤ 971) :
    is_binary64 ((m : ℚ) * (2 : ℚ) ^ e) := by
  obtain ⟨j, hj⟩ : ∃ j : Nat, (j : Int) = e - e1 := ⟨(e - e1).toNat, Int.toNat_of_nonneg (by omega)⟩
  refine ⟨m * 2 ^ j, e1, ?_, h3, h4, ?_⟩
  · have hk : k + 1 + j ≤ 53 := by omega
    calc m * 2 ^ j < 2 ^ (k + 1) * 2 ^ j := Nat.mul_lt_mul_of_pos_right hhi (by positivity)
      _ = 2 ^ (k + 1 + j) := (pow_add 2 (k + 1) j).symm
      _ ≤ 2 ^ 53 := Nat.pow_le_pow_right (by norm_num) hk
  · rw [abs_of_nonneg (by positivity)]
    have he : e = e1 + (j : Int) := by omega
    rw [he, two_zpow_add, two_zpow_nat]
    push_cast
    ring

/-- The rounded case of `round_binary64`: the quotient of the significand by
`2^(e1 - e)`, rounded to an integer, at the exponent `e1`, is a binary64 value
nearest to `m * 2^e`. -/
theorem nearest_binary64_rounded (m k : Nat) (e e1 : Int) (hlo : 2 ^ k ≤ m)
    (hhi : m < 2 ^ (k + 1)) (h1 : e < e1) (h2 : e + (k + 1) - 53 ≤ e1) (h3 : -1074 ≤ e1)
    (hcase : e1 = e + (k + 1) - 53 ∨ e1 = -1074) (h4 : e1 ≤ 971)
    (h5 : e1 = 971 → round_half_even m (2 ^ (e1 - e).toNat) < 2 ^ 53) :
    nearest_binary64 ((m : ℚ) * (2 : ℚ) ^ e)
      ((round_half_even m (2 ^ (e1 - e).toNat) : ℚ) * (2 : ℚ) ^ e1) := by
  obtain ⟨sh, hsh⟩ : ∃ sh : Nat, (sh : Int) = e1 - e :=
    ⟨(e1 - e).toNat, Int.toNat_of_nonneg (by omega)⟩
  have hshn : (e1 - e).toNat = sh := by omega
  rw [hshn] at h5 ⊢
  have hd : 0 < 2 ^ sh := by positivity
  obtain ⟨s1, s2, _⟩ := round_half_even_spec m (2 ^ sh) hd
  have hgrid := round_half_even_nearest m (2 ^ sh) hd
  set q : Nat := round_half_even m (2 ^ sh) with hq
  have hu : (0 : ℚ) < (2 : ℚ) ^ e1 := two_zpow_pos e1
  have hdq : (0 : ℚ) < ((2 ^ sh : Nat) : ℚ) := by exact_mod_cast hd
  have hx : (m : ℚ) * (2 : ℚ) ^ e = (m : ℚ) / ((2 ^ sh : Nat) : ℚ) * (2 : ℚ) ^ e1 := by
    have he : e1 = e + (sh : Int) := by omega
    rw [he, two_zpow_add, two_zpow_nat]
    field_simp
    ring
  have grid : ∀ kz : Int, |(q : ℚ) * (2 : ℚ) ^ e1 - (m : ℚ) * (2 : ℚ) ^ e|
      ≤ |((kz : Int) : ℚ) * (2 : ℚ) ^ e1 - (m : ℚ) * (2 : ℚ) ^ e| := by
    intro kz
    rw [hx, ← sub_mul, ← sub_mul, abs_mul, abs_mul, abs_of_pos hu]
    exact mul_le_mul_of_nonneg_right (hgrid kz) (le_of_lt hu)
  have hq53 : q ≤ 2 ^ 53 := by
    have hk : k + 1 ≤ 53 + sh := by omega
    have hm2 : m < 2 ^ 53 * 2 ^ sh := by
      calc m < 2 ^ (k + 1) := hhi
        _ ≤ 2 ^ (53 + sh) := Nat.pow_le_pow_right (by norm_num) hk
        _ = 2 ^ 53 * 2 ^ sh := pow_add 2 53 sh
    by_contra hc
    have hc2 : 2 ^ 53 + 1 ≤ q := by omega
    have := Nat.mul_le_mul_left (2 ^ sh) hc2
    rw [Nat.mul_add, Nat.mul_one, Nat.mul_comm (2 ^ sh) (2 ^ 53)] at this
    omega
  refine ⟨?_, ?_⟩
  · by_cases hlt : q < 2 ^ 53
    · exact ⟨q, e1, hlt, h3, h4, by rw [abs_of_nonneg (by positivity)]⟩
    · have hq2 : q = 2 ^ 53 := by omega
      have h971 : e1 ≠ 971 := fun h => hlt (h5 h)
      refine ⟨2 ^ 52, e1 + 1, by norm_num, by omega, by omega, ?_⟩
      rw [abs_of_nonneg (by positivity), hq2, two_zpow_add]
      push_cast
      norm_num
      ring
  · rintro z ⟨mz, ez, hmz, hez1, hez2, hzabs⟩
    by_cases hge : e1 ≤ ez
    · obtain ⟨j, hj⟩ : ∃ j : Nat, (j : Int) = ez - e1 :=
        ⟨(ez - e1).toNat, Int.toNat_of_nonneg (by omega)⟩
      have hez : ez = e1 + (j : Int) := by omega
      have hzmag : |z| = (((mz * 2 ^ j : Nat) : Int) : ℚ) * (2 : ℚ) ^ e1 := by
        rw [hzabs, hez, two_zpow_add, two_zpow_nat]
        push_cast
        ring
      rcases abs_choice z with hz | hz
      · rw [hz] at hzmag
        rw [hzmag]
        exact grid _
      · have hz2 : z = ((-((mz * 2 ^ j : Nat) : Int) : Int) : ℚ) * (2 : ℚ) ^ e1 := by
          have : z = -|z| := by rw [hz]; ring
          rw [this, hzmag]
          push_cast
          ring
        rw [hz2]
        exact grid _
    · have hlt : ez < e1 := not_le.mp hge
      have he1 : e1 = e + (k + 1) - 53 := by
        rcases hcase with h | h
        · exact h
        · omega
      have hG : (((2 ^ 52 : Nat) : Int) : ℚ) * (2 : ℚ) ^ e1 ≤ (m : ℚ) * (2 : ℚ) ^ e := by
        have hke : (52 : Int) + e1 = (k : Int) + e := by omega
        have h52 : (((2 ^ 52 : Nat) : Int) : ℚ) * (2 : ℚ) ^ e1 = (2 : ℚ) ^ ((52 : Int) + e1) := by
          rw [two_zpow_add]
          norm_num
        rw [h52, hke, two_zpow_add, two_zpow_nat]
        have : ((2 ^ k : Nat) : ℚ) ≤ (m : ℚ) := by exact_mod_cast hlo
        exact mul_le_mul_of_nonneg_right this (le_of_lt (two_zpow_pos e))
      have hzG : z < (((2 ^ 52 : Nat) : Int) : ℚ) * (2 : ℚ) ^ e1 := by
        have hz1 : z ≤ |z| := le_abs_self z
        have hz2 : |z| < (2 : ℚ) ^ (53 : Int) * (2 : ℚ) ^ ez := by
          rw [hzabs]
          have : (mz : ℚ) < (2 : ℚ) ^ (53 : Int) := by
            have h53 : (2 : ℚ) ^ (53 : Int) = ((2 ^ 53 : Nat) : ℚ) := by norm_num
            rw [h53]
            exact_mod_cast hmz
          exact mul_lt_mul_of_pos_right this (two_zpow_pos ez)
        have hz3 : (2 : ℚ) ^ (53 : Int) * (2 : ℚ) ^ ez
            ≤ (((2 ^ 52 : Nat) : Int) : ℚ) * (2 : ℚ) ^ e1 := by
          have h52 : (((2 ^ 52 : Nat) : Int) : ℚ) * (2 : ℚ) ^ e1
              = (2 : ℚ) ^ ((52 : Int) + e1) := by
            rw [two_zpow_add]
            norm_num
          rw [h52, ← two_zpow_add]
          exact two_zpow_mono (by omega)
        linarith
      have hg := grid ((2 ^ 52 : Nat) : Int)
      have e3 : |(((2 ^ 52 : Nat) : Int) : ℚ) * (2 : ℚ) ^ e1 - (m : ℚ) * (2 : ℚ) ^ e|
          = (m : ℚ) * (2 : ℚ) ^ e - (((2 ^ 52 : Nat) : Int) : ℚ) * (2 : ℚ) ^ e1 := by
        rw [abs_sub_comm, abs_of_nonneg (by linarith)]
      have e4 : |z - (m : ℚ) * (2 : ℚ) ^ e| = (m : ℚ) * (2 : ℚ) ^ e - z := by
        rw [abs_sub_comm, abs_of_nonneg (by linarith)]
      rw [e4]
      rw [e3] at hg
      linarith
theorem is_binary64_zero : is_binary64 0 :=
  ⟨0, 0, by norm_num, by norm_num, by norm_num, by simp⟩

theorem nearest_binary64_self (x : ℚ) (h : is_binary64 x) : nearest_binary64 x x :=
  ⟨h, fun z _ => by rw [sub_self, abs_zero]; exact abs_nonneg _⟩

theorem is_binary64_neg (x : ℚ) (h : is_binary64 x) : is_binary64 (-x) := by
  obtain ⟨m, e, h1, h2, h3, h4⟩ := h
  exact ⟨m, e, h1, h2, h3, by rw [abs_neg]; exact h4⟩

theorem nearest_binary64_neg (x y : ℚ) (h : nearest_binary64 x y) :
    nearest_binary64 (-x) (-y) := by
  refine ⟨is_binary64_neg y h.1, ?_⟩
  intro z hz
  have h1 := h.2 (-z) (is_binary64_neg z hz)
  have e1 : |(-y) - (-x)| = |y - x| := by rw [← abs_neg]; congr 1; ring
  have e2 : |z - (-x)| = |(-z) - x| := by rw [← abs_neg]; congr 1; ring
  rw [e1, e2]
  exact h1

/-- A finite result of `round_binary64` has the sign asked for and a
magnitude that is a binary64 value nearest to `m * 2^e`. -/
theorem round_binary64_nearest (neg : Bool) (m : Nat) (e : Int) (neg' : Bool) (m' : Nat)
    (e' : Int) (h : round_binary64 neg m e = gdouble.finite neg' m' e') :
    neg' = neg ∧ nearest_binary64 ((m : ℚ) * (2 : ℚ) ^ e) ((m' : ℚ) * (2 : ℚ) ^ e') := by
  unfold round_binary64 at h
  by_cases hm : m = 0
  · rw [if_pos hm] at h
    injection h with h1 h2 h3
    subst hm
    rw [← h2]
    refine ⟨h1.symm, ?_⟩
    simp only [Nat.cast_zero, zero_mul]
    exact nearest_binary64_self 0 is_binary64_zero
  · rw [if_neg hm] at h
    obtain ⟨k, hb, hlo, hhi⟩ := bit_length_spec m (Nat.pos_of_ne_zero hm)
    rw [hb] at h
    dsimp only at h
    have hl := le_max_left (e + ((k + 1 : Nat) : Int) - 53) (-1074)
    have hr := le_max_right (e + ((k + 1 : Nat) : Int) - 53) (-1074)
    have hc := max_choice (e + ((k + 1 : Nat) : Int) - 53) (-1074)
    generalize max (e + ((k + 1 : Nat) : Int) - 53) (-1074) = e1 at h hl hr hc
    push_cast at h hl hc
    split_ifs at h with c1 c2 c3
    · injection h with h1 h2 h3
      rw [← h2, ← h3]
      refine ⟨h1.symm, ?_⟩
      exact nearest_binary64_self _
        (is_binary64_exact m k e e1 hhi c1 (by omega) hr (by omega))
    · injection h with h1 h2 h3
      rw [← h2, ← h3]
      refine ⟨h1.symm, ?_⟩
      push_neg at c3
      exact nearest_binary64_rounded m k e e1 hlo hhi (by omega) (by omega) hr
        (by rcases hc with h | h <;> [left; right] <;> omega) (by omega)
        (fun h971 => c3.2 h971)

/-- The sign factor of a value. -/
theorem value_finite (neg : Bool) (m : Nat) (e : Int) :
    (gdouble.finite neg m e).value = (signed neg m : ℚ) * (2 : ℚ) ^ e := by
  cases neg <;> simp [gdouble.value, signed]

/-- A finite result of `round_binary64` is a binary64 value nearest to the
value it was given. -/
theorem round_binary64_value_nearest (neg : Bool) (m : Nat) (e : Int) (neg' : Bool)
    (m' : Nat) (e' : Int) (h : round_binary64 neg m e = gdouble.finite neg' m' e') :
    nearest_binary64 (gdouble.finite neg m e).value (gdouble.finite neg' m' e').value := by
  obtain ⟨hs, hn⟩ := round_binary64_nearest neg m e neg' m' e' h
  subst hs
  cases neg'
  · simpa [gdouble.value] using hn
  · have := nearest_binary64_neg _ _ hn
    simpa [gdouble.value] using this

theorem signed_scale (neg : Bool) (m j : Nat) :
    ((signed neg (m * 2 ^ j) : Int) : ℚ) = ((signed neg m : Int) : ℚ) * ((2 ^ j : Nat) : ℚ) := by
  cases neg <;> simp [signed]

theorem signed_natAbs (d : Int) : signed (decide (d < 0)) d.natAbs = d := by
  unfold signed
  by_cases h : d < 0
  · simp only [h, decide_True, if_true]
    omega
  · simp only [h, decide_False, Bool.false_eq_true, if_false]
    omega

theorem signed_mul (n1 n2 : Bool) (m1 m2 : Nat) :
    signed (n1 != n2) (m1 * m2) = signed n1 m1 * signed n2 m2 := by
  cases n1 <;> cases n2 <;> simp [signed]

/-- The exact difference of two finite doubles, at their smaller exponent. -/
theorem exact_difference (n1 : Bool) (m1 : Nat) (e1 : Int) (n2 : Bool) (m2 : Nat) (e2 : Int) :
    (((signed n1 (m1 * 2 ^ (e1 - min e1 e2).toNat)
        - signed n2 (m2 * 2 ^ (e2 - min e1 e2).toNat) : Int) : ℚ)) * (2 : ℚ) ^ (min e1 e2)
      = (gdouble.finite n1 m1 e1).value - (gdouble.finite n2 m2 e2).value := by
  have hl := min_le_left e1 e2
  have hr := min_le_right e1 e2
  generalize min e1 e2 = e at hl hr
  obtain ⟨j1, hj1⟩ : ∃ j : Nat, (j : Int) = e1 - e := ⟨(e1 - e).toNat, Int.toNat_of_nonneg (by omega)⟩
  obtain ⟨j2, hj2⟩ : ∃ j : Nat, (j : Int) = e2 - e := ⟨(e2 - e).toNat, Int.toNat_of_nonneg (by omega)⟩
  have h1 : (e1 - e).toNat = j1 := by omega
  have h2 : (e2 - e).toNat = j2 := by omega
  have he1 : e1 = e + (j1 : Int) := by omega
  have he2 : e2 = e + (j2 : Int) := by omega
  rw [h1, h2, value_finite, value_finite]
  push_cast
  rw [signed_scale, signed_scale]
  conv_rhs => rw [he1, he2, two_zpow_add, two_zpow_add, two_zpow_nat, two_zpow_nat]
  ring

/-- A finite difference of two finite doubles is a binary64 value nearest to
the difference of their values. -/
theorem sub_value_nearest (n1 : Bool) (m1 : Nat) (e1 : Int) (n2 : Bool) (m2 : Nat) (e2 : Int)
    (nr : Bool) (mr : Nat) (er : Int)
    (h : (gdouble.finite n1 m1 e1).sub (gdouble.finite n2 m2 e2) = gdouble.finite nr mr er) :
    nearest_binary64 ((gdouble.finite n1 m1 e1).value - (gdouble.finite n2 m2 e2).value)
      (gdouble.finite nr mr er).value := by
  have hx := exact_difference n1 m1 e1 n2 m2 e2
  simp only [gdouble.sub] at h
  generalize signed n1 (m1 * 2 ^ (e1 - min e1 e2).toNat)
    - signed n2 (m2 * 2 ^ (e2 - min e1 e2).toNat) = d at h hx
  rw [← hx]
  split_ifs at h with hd
  · injection h with h1 h2 h3
    rw [hd, ← h2]
    simp only [Int.cast_zero, zero_mul, gdouble.value, Nat.cast_zero, mul_zero]
    exact nearest_binary64_self 0 is_binary64_zero
  · have hn := round_binary64_value_nearest _ _ _ _ _ _ h
    rw [value_finite, signed_natAbs] at hn
    exact hn

/-- A finite product of two finite doubles is a binary64 value nearest to the
product of their values. -/
theorem mul_value_nearest (n1 : Bool) (m1 : Nat) (e1 : Int) (n2 : Bool) (m2 : Nat) (e2 : Int)
    (nr : Bool) (mr : Nat) (er : Int)
    (h : (gdouble.finite n1 m1 e1).mul (gdouble.finite n2 m2 e2) = gdouble.finite nr mr er) :
    nearest_binary64 ((gdouble.finite n1 m1 e1).value * (gdouble.finite n2 m2 e2).value)
      (gdouble.finite nr mr er).value := by
  simp only [gdouble.mul] at h
  have hn := round_binary64_value_nearest _ _ _ _ _ _ h
  have hv : (gdouble.finite (n1 != n2) (m1 * m2) (e1 + e2)).value
      = (gdouble.finite n1 m1 e1).value * (gdouble.finite n2 m2 e2).value := by
    rw [value_finite, value_finite, value_finite, signed_mul, two_zpow_add]
    push_cast
    ring
  rw [hv] at hn
  exact hn

/-- Cutting a magnitude toward zero is taking the floor of its value. -/
theorem trunc_magnitude_eq_floor (m : Nat) (e : Int) :
    trunc_magnitude m e = ⌊(m : ℚ) * (2 : ℚ) ^ e⌋₊ := by
  unfold trunc_magnitude
  split_ifs with he
  · obtain ⟨j, hj⟩ : ∃ j : Nat, (j : Int) = e := ⟨e.toNat, Int.toNat_of_nonneg he⟩
    have h1 : e.toNat = j := by omega
    rw [h1, ← hj, two_zpow_nat]
    have : (m : ℚ) * ((2 ^ j : Nat) : ℚ) = ((m * 2 ^ j : Nat) : ℚ) := by push_cast; ring
    rw [this, Nat.floor_natCast]
  · obtain ⟨j, hj⟩ : ∃ j : Nat, (j : Int) = -e := ⟨(-e).toNat, Int.toNat_of_nonneg (by omega)⟩
    have h1 : (-e).toNat = j := by omega
    have he2 : e = -(j : Int) := by omega
    rw [h1, he2, zpow_neg, two_zpow_nat, ← div_eq_mul_inv, Nat.floor_div_eq_div]
theorem ofNat_86400 : gdouble.ofNat 86400 = gdouble.finite false 86400 0 := by decide

/-- A finite product `(los - aos)*86400` comes from finite `los`, `aos` and a
finite difference. -/
theorem finite_parts_of_finite_product (pass : pass_t) (np : Bool) (mp : Nat) (ep : Int)
    (hp : duration_product pass = gdouble.finite np mp ep) :
    ∃ (nl : Bool) (ml : Nat) (el : Int) (na : Bool) (ma : Nat) (ea : Int)
      (nd : Bool) (md : Nat) (ed : Int),
      pass.los = gdouble.finite nl ml el ∧ pass.aos = gdouble.finite na ma ea
      ∧ pass.los.sub pass.aos = gdouble.finite nd md ed := by
  unfold duration_product at hp
  rw [ofNat_86400] at hp
  cases hl : pass.los with
  | finite nl ml el =>
    cases ha : pass.aos with
    | finite na ma ea =>
      rw [hl, ha] at hp
      cases hd : (gdouble.finite nl ml el).sub (gdouble.finite na ma ea) with
      | finite nd md ed => exact ⟨nl, ml, el, na, ma, ea, nd, md, ed, rfl, rfl, rfl⟩
      | inf s => rw [hd] at hp; simp [gdouble.mul] at hp
      | nan s => rw [hd] at hp; simp [gdouble.mul] at hp
    | inf s => rw [hl, ha] at hp; simp [gdouble.sub, gdouble.mul] at hp
    | nan s => rw [hl, ha] at hp; simp [gdouble.sub, gdouble.mul] at hp
  | inf s =>
    cases ha : pass.aos with
    | finite na ma ea => rw [hl, ha] at hp; simp [gdouble.sub, gdouble.mul] at hp
    | inf s2 =>
      rw [hl, ha] at hp
      simp only [gdouble.sub] at hp
      split_ifs at hp <;> simp [gdouble.mul] at hp
    | nan s2 => rw [hl, ha] at hp; simp [gdouble.sub, gdouble.mul] at hp
  | nan s =>
    rw [hl] at hp
    cases ha : pass.aos <;> rw [ha] at hp <;> simp [gdouble.sub, gdouble.mul] at hp

/-- For finite `aos < los` the difference `los - aos` of the code has a clear
sign bit, and the difference of the values is positive. -/
theorem sub_positive_of_lt (nl : Bool) (ml : Nat) (el : Int) (na : Bool) (ma : Nat) (ea : Int)
    (nd : Bool) (md : Nat) (ed : Int)
    (hlt : (gdouble.finite na ma ea).lt (gdouble.finite nl ml el) = true)
    (hd : (gdouble.finite nl ml el).sub (gdouble.finite na ma ea) = gdouble.finite nd md ed) :
    nd = false
    ∧ 0 < (gdouble.finite nl ml el).value - (gdouble.finite na ma ea).value := by
  have hx := exact_difference nl ml el na ma ea
  simp only [gdouble.lt, decide_eq_true_eq] at hlt
  rw [min_comm ea el] at hlt
  simp only [gdouble.sub] at hd
  generalize signed nl (ml * 2 ^ (el - min el ea).toNat) = a at hlt hd hx
  generalize signed na (ma * 2 ^ (ea - min el ea).toNat) = b at hlt hd hx
  have hpos : 0 < a - b := by omega
  have hne : a - b ≠ 0 := by omega
  rw [if_neg hne] at hd
  have hneg : decide (a - b < 0) = false := by
    rw [decide_eq_false_iff_not]; omega
  rw [hneg] at hd
  obtain ⟨hs, _⟩ := round_binary64_nearest _ _ _ _ _ _ hd
  refine ⟨hs, ?_⟩
  rw [← hx]
  have : (0 : ℚ) < ((a - b : Int) : ℚ) := by exact_mod_cast hpos
  exact mul_pos this (two_zpow_pos _)

/-- The cast of a double that is not negative and below `2^32` is its floor. -/
theorem to_guint_in_range (m : Nat) (e : Int) (h : (m : ℚ) * (2 : ℚ) ^ e < 2 ^ 32) :
    (gdouble.finite false m e).to_guint = some ⌊(m : ℚ) * (2 : ℚ) ^ e⌋₊ := by
  have hnn : (0 : ℚ) ≤ (m : ℚ) * (2 : ℚ) ^ e := by positivity
  have hfl : ⌊(m : ℚ) * (2 : ℚ) ^ e⌋₊ < 2 ^ 32 := by
    rw [Nat.floor_lt hnn]
    exact_mod_cast h
  simp only [gdouble.to_guint, trunc_magnitude_eq_floor]
  have h63 : ¬ (2 ^ 63 ≤ ⌊(m : ℚ) * (2 : ℚ) ^ e⌋₊) := by omega
  rw [if_neg h63]
  simp only [Bool.false_eq_true, if_false]
  rw [Nat.mod_eq_of_lt hfl]

/-! ## What the encoders build -/

/-- The hours, minutes and seconds of the code in `guint` arithmetic. -/
theorem hms_extraction (T : Nat) (hT : T < 2 ^ 32) :
    guint_sub T (guint_mul 3600 (T / 3600)) = T % 3600
    ∧ (T % 3600) / 60 = (T / 60) % 60
    ∧ guint_sub (T % 3600) (guint_mul 60 ((T % 3600) / 60)) = T % 60 := by
  unfold guint_sub guint_mul
  have h1 : 3600 * (T / 3600) ≤ T := Nat.mul_div_le T 3600
  have h2 : T % 3600 < 3600 := Nat.mod_lt _ (by norm_num)
  have h3 : 60 * (T % 3600 / 60) ≤ T % 3600 := Nat.mul_div_le _ 60
  norm_num at hT ⊢
  refine ⟨?_, ?_, ?_⟩ <;> omega

theorem guint_as_int_small (u : Nat) (h : u < 2 ^ 31) : guint_as_int u = (u : Int) := by
  unfold guint_as_int
  have : u % 2 ^ 32 = u := Nat.mod_eq_of_lt (by omega)
  rw [this, if_pos h]

theorem to_guint_lt (x : gdouble) (T : Nat) (h : x.to_guint = some T) : T < 2 ^ 32 := by
  have hpos : 0 < 2 ^ 32 := by norm_num
  cases x with
  | finite neg m e =>
    simp only [gdouble.to_guint] at h
    split_ifs at h with h0 h1
    · cases h; exact hpos
    · cases h; exact Nat.mod_lt _ hpos
    · cases h; exact Nat.mod_lt _ hpos
  | inf _ => simp only [gdouble.to_guint] at h; cases h; exact hpos
  | nan _ => simp only [gdouble.to_guint] at h; cases h; exact hpos

theorem duration_seconds_lt (pass : pass_t) (T : Nat) (h : duration_seconds pass = some T) :
    T < 2 ^ 32 := to_guint_lt _ _ h

theorem degree_bracket_split : ("°]\n" : String) = "°]" ++ "\n" := rfl

/-- One round of the loop: the text grows by the block of the pass at index `i`. -/
theorem loop_step (env : Env) (tz : String) (passes : List pass_t) (qth : qth_t)
    (sat : String) (remaining i : Nat) (data : String) (pass : pass_t)
    (hp : passes[i]? = some pass) (htz : tz = timezone_part env) :
    save_passes_ical_loop env tz passes qth sat (remaining + 1) i data
      = match duration_seconds pass with
        | none => none
        | some T => save_passes_ical_loop env tz passes qth sat remaining (i + 1)
            (data ++ event_text env qth sat pass T) := by
  subst htz
  rw [save_passes_ical_loop]
  simp only [hp, duration_seconds]
  cases hT : ((pass.los.sub pass.aos).mul (gdouble.ofNat 86400)).to_guint with
  | none => rfl
  | some T =>
    have hlt := to_guint_lt _ _ hT
    obtain ⟨e1, e2, e3⟩ := hms_extraction T hlt
    rw [e2] at e3
    simp only [e1, e2, e3]
    have hm : guint_as_int (T / 60 % 60) = ((T / 60 % 60 : Nat) : Int) :=
      guint_as_int_small _ (by have := Nat.mod_lt (T / 60) (show 0 < 60 by norm_num); omega)
    have hs : guint_as_int (T % 60) = ((T % 60 : Nat) : Int) :=
      guint_as_int_small _ (by have := Nat.mod_lt T (show 0 < 60 by norm_num); omega)
    rw [hm, hs]
    simp only [event_text, dtstart_line, dtend_line, summary_line, uid_line, description_line,
      degree_bracket_split, String.append_assoc]

/-- The block of a pass is the seven lines of `event_text`, when the second
count is defined. -/
theorem vevent_block_eq (env : Env) (qth : qth_t) (sat : String) (pass : pass_t) :
    vevent_block env qth sat pass
      = (duration_seconds pass).map (event_text env qth sat pass) := by
  unfold vevent_block
  rw [loop_step env _ [pass] qth sat 0 0 "" pass rfl rfl]
  cases duration_seconds pass with
  | none => rfl
  | some T => simp [save_passes_ical_loop, String.ext_iff]

/-- The loop from index `i` on adds the blocks of the passes from `i` on, in order. -/
theorem loop_eq (env : Env) (passes : List pass_t) (qth : qth_t) (sat : String) :
    ∀ (remaining i : Nat) (data : String), i + remaining = passes.length →
      save_passes_ical_loop env (timezone_part env) passes qth sat remaining i data
        = ((passes.drop i).mapM (vevent_block env qth sat)).map
            (fun blocks => data ++ String.join blocks) := by
  intro remaining
  induction remaining with
  | zero =>
    intro i data h
    have hi : passes.length ≤ i := by omega
    rw [List.drop_eq_nil_of_le hi, List.mapM_nil]
    simp [save_passes_ical_loop, join_nil, String.ext_iff, pure]
  | succ k ih =>
    intro i data h
    have hi : i < passes.length := by omega
    have hp : passes[i]? = some passes[i] := List.getElem?_eq_getElem hi
    rw [loop_step env _ passes qth sat k i data passes[i] hp rfl,
      List.drop_eq_getElem_cons hi, List.mapM_cons, vevent_block_eq]
    cases hT : duration_seconds passes[i] with
    | none => rfl
    | some T =>
      dsimp only
      rw [ih (i + 1) _ (by omega)]
      cases List.mapM (vevent_block env qth sat) (List.drop (i + 1) passes) with
      | none => rfl
      | some bs => simp [join_cons, String.append_assoc]

/-- The text of `save_passes_ical_exec`: header, blocks in order, footer. -/
theorem passes_data_eq (env : Env) (passes : List pass_t) (qth : qth_t) (sat : String) :
    save_passes_ical_data env passes qth sat
      = (passes.mapM (vevent_block env qth sat)).map
          (fun blocks => ical_header ++ String.join blocks ++ ical_footer) := by
  unfold save_passes_ical_data
  have h := loop_eq env passes qth sat passes.length 0 ical_header (by omega)
  simp only [timezone_part, ical_header, List.drop_zero] at h
  simp only [h]
  cases List.mapM (vevent_block env qth sat) passes with
  | none => rfl
  | some bs => rfl

/-- The text of `save_pass_ical_exec`: header, the seven lines, footer. -/
theorem pass_data_eq (env : Env) (pass : pass_t) (qth : qth_t) (sat : String) :
    save_pass_ical_data env pass qth sat
      = (duration_seconds pass).map
          (fun T => ical_header ++ event_text env qth sat pass T ++ ical_footer) := by
  unfold save_pass_ical_data
  simp only [duration_seconds]
  cases hT : ((pass.los.sub pass.aos).mul (gdouble.ofNat 86400)).to_guint with
  | none => rfl
  | some T =>
    have hlt := to_guint_lt _ _ hT
    obtain ⟨e1, e2, e3⟩ := hms_extraction T hlt
    rw [e2] at e3
    simp only [e1, e2, e3]
    have hm : guint_as_int (T / 60 % 60) = ((T / 60 % 60 : Nat) : Int) :=
      guint_as_int_small _ (by have := Nat.mod_lt (T / 60) (show 0 < 60 by norm_num); omega)
    have hs : guint_as_int (T % 60) = ((T % 60 : Nat) : Int) :=
      guint_as_int_small _ (by have := Nat.mod_lt T (show 0 < 60 by norm_num); omega)
    rw [hm, hs]
    simp only [event_text, dtstart_line, dtend_line, summary_line, uid_line, description_line,
      ical_header, ical_footer, timezone_part, degree_bracket_split, String.append_assoc,
      Option.map_some']

/-- A text is built for the whole list exactly when the second count of every
pass is defined. -/
theorem mapM_blocks_isSome (env : Env) (qth : qth_t) (sat : String) (passes : List pass_t) :
    (passes.mapM (vevent_block env qth sat)).isSome
      = passes.all (fun pass => (duration_seconds pass).isSome) := by
  induction passes with
  | nil => rfl
  | cons p ps ih =>
    rw [List.mapM_cons, List.all_cons, ← ih, vevent_block_eq]
    cases duration_seconds p with
    | none => rfl
    | some T =>
      cases List.mapM (vevent_block env qth sat) ps with
      | none => rfl
      | some bs => rfl

/-- When the blocks of all passes exist they are the `event_text` of the passes
at their second counts. -/
theorem mapM_blocks_some (env : Env) (qth : qth_t) (sat : String) :
    ∀ (passes : List pass_t) (blocks : List String),
      passes.mapM (vevent_block env qth sat) = some blocks →
      blocks = passes.map (fun pass =>
        event_text env qth sat pass ((duration_seconds pass).getD 0))
      ∧ ∀ pass ∈ passes, (duration_seconds pass).isSome = true := by
  intro passes
  induction passes with
  | nil =>
    intro blocks h
    rw [List.mapM_nil] at h
    cases h
    simp
  | cons p ps ih =>
    intro blocks h
    rw [List.mapM_cons, vevent_block_eq] at h
    cases hT : duration_seconds p with
    | none => rw [hT] at h; cases h
    | some T =>
      rw [hT] at h
      cases hbs : List.mapM (vevent_block env qth sat) ps with
      | none => rw [hbs] at h; cases h
      | some bs =>
        rw [hbs] at h
        obtain ⟨e, hall⟩ := ih bs hbs
        cases h
        refine ⟨by simp [hT, e], ?_⟩
        intro q hq
        rcases List.mem_cons.mp hq with rfl | hq
        · simp [hT]
        · exact hall q hq

/-! ## The lines of what the encoders build -/

theorem event_text_eq_unlines (env : Env) (qth : qth_t) (sat : String) (pass : pass_t)
    (T : Nat) : event_text env qth sat pass T = unlines (event_lines env qth sat pass T) := by
  have e1 : ("BEGIN:VEVENT\n" : String) = "BEGIN:VEVENT" ++ "\n" := rfl
  have e2 : ("END:VEVENT\n" : String) = "END:VEVENT" ++ "\n" := rfl
  simp only [event_text, event_lines, unlines_cons, unlines_nil, e1, e2, String.append_assoc,
    String.append_empty]

theorem event_lines_no_line_break (env : Env) (qth : qth_t) (sat : String) (pass : pass_t)
    (T : Nat) (hsat : ¬ has_line_break sat)
    (hts : ∀ fmt t, ¬ has_line_break (env.daynum_to_str fmt t)) :
    ∀ l ∈ event_lines env qth sat pass T, ¬ has_line_break l := by
  have htz := timezone_part_no_line_break env
  have hf0 := fmt_f_no_line_break 0 pass.max_el
  have hlat := fmt_f_no_line_break 6 qth.lat
  have hlon := fmt_f_no_line_break 6 qth.lon
  have horb := fmt_d_no_line_break pass.orbit
  have hm := fmt_02d_no_line_break (((T / 60) % 60 : Nat) : Int)
  have hs := fmt_02d_no_line_break ((T % 60 : Nat) : Int)
  have ha := fmt_wf_no_line_break 6 2 pass.aos_az
  have hl := fmt_wf_no_line_break 6 2 pass.los_az
  have h1 := hts "%Y%m%dT%H%M%S" pass.aos
  have h2 := hts "%Y%m%dT%H%M%S" pass.los
  have h3 := hts "%Y%m%d%H" pass.aos
  have c1 : ¬ has_line_break "BEGIN:VEVENT" := by decide
  have c2 : ¬ has_line_break "DTSTART" := by decide
  have c3 : ¬ has_line_break "DTEND" := by decide
  have c4 : ¬ has_line_break "SUMMARY:" := by decide
  have c5 : ¬ has_line_break " [" := by decide
  have c6 : ¬ has_line_break "°]" := by decide
  have c7 : ¬ has_line_break "UID:" := by decide
  have c8 : ¬ has_line_break "@" := by decide
  have c9 : ¬ has_line_break "DESCRIPTION:" := by decide
  have c10 : ¬ has_line_break "Duration: " := by decide
  have c11 : ¬ has_line_break ":" := by decide
  have c12 : ¬ has_line_break "\\n" := by decide
  have c13 : ¬ has_line_break "AOS Azimuth:  " := by decide
  have c14 : ¬ has_line_break "LOS Azimuth:  " := by decide
  have c15 : ¬ has_line_break "END:VEVENT" := by decide
  intro l hl
  simp only [event_lines, List.mem_cons, List.mem_singleton, List.not_mem_nil, or_false] at hl
  rcases hl with rfl | rfl | rfl | rfl | rfl | rfl | rfl
  · exact c1
  · simp only [dtstart_line, has_line_break_append]; tauto
  · simp only [dtend_line, has_line_break_append]; tauto
  · simp only [summary_line, has_line_break_append]; tauto
  · simp only [uid_line, has_line_break_append]; tauto
  · simp only [description_line, has_line_break_append]; tauto
  · exact c15

/-- The three header lines. -/
theorem ical_header_eq_unlines :
    ical_header = unlines ["BEGIN:VCALENDAR", "VERSION:2.0", "CALSCALE:GREGORIAN"] := by
  decide

theorem ical_footer_eq_unlines : ical_footer = unlines ["END:VCALENDAR"] := by
  decide

theorem text_lines_unlines_all (ls : List String) (h : ∀ l ∈ ls, ¬ has_line_break l) :
    text_lines (unlines ls) = ls := by
  have e := text_lines_unlines ls "" h
  rw [String.append_empty, text_lines_empty, List.append_nil] at e
  exact e

/-- The lines of the text built for one pass. -/
theorem pass_document_lines (env : Env) (pass : pass_t) (qth : qth_t) (sat : String) (T : Nat)
    (hsat : ¬ has_line_break sat)
    (hts : ∀ fmt t, ¬ has_line_break (env.daynum_to_str fmt t)) :
    text_lines (ical_header ++ event_text env qth sat pass T ++ ical_footer)
      = ["BEGIN:VCALENDAR", "VERSION:2.0", "CALSCALE:GREGORIAN"]
          ++ event_lines env qth sat pass T ++ ["END:VCALENDAR"] := by
  rw [ical_header_eq_unlines, ical_footer_eq_unlines, event_text_eq_unlines,
    ← unlines_append, ← unlines_append]
  apply text_lines_unlines_all
  intro l hl
  simp only [List.mem_append] at hl
  rcases hl with (hl | hl) | hl
  · simp only [List.mem_cons, List.mem_singleton, List.not_mem_nil, or_false] at hl
    rcases hl with rfl | rfl | rfl <;> decide
  · exact event_lines_no_line_break env qth sat pass T hsat hts l hl
  · simp only [List.mem_singleton] at hl
    subst hl
    decide

theorem join_event_texts (env : Env) (qth : qth_t) (sat : String) (sec : pass_t → Nat)
    (passes : List pass_t) :
    String.join (passes.map (fun pass => event_text env qth sat pass (sec pass)))
      = unlines (passes.flatMap (fun pass => event_lines env qth sat pass (sec pass))) := by
  induction passes with
  | nil => rfl
  | cons p ps ih =>
    rw [List.map_cons, join_cons, List.flatMap_cons, unlines_append, ih, event_text_eq_unlines]

/-- The lines of the text built for a list of passes. -/
theorem passes_document_lines (env : Env) (passes : List pass_t) (qth : qth_t) (sat : String)
    (sec : pass_t → Nat) (hsat : ¬ has_line_break sat)
    (hts : ∀ fmt t, ¬ has_line_break (env.daynum_to_str fmt t)) :
    text_lines (ical_header
        ++ String.join (passes.map (fun pass => event_text env qth sat pass (sec pass)))
        ++ ical_footer)
      = ["BEGIN:VCALENDAR", "VERSION:2.0", "CALSCALE:GREGORIAN"]
          ++ passes.flatMap (fun pass => event_lines env qth sat pass (sec pass))
          ++ ["END:VCALENDAR"] := by
  rw [ical_header_eq_unlines, ical_footer_eq_unlines, join_event_texts,
    ← unlines_append, ← unlines_append]
  apply text_lines_unlines_all
  intro l hl
  simp only [List.mem_append, List.mem_flatMap] at hl
  rcases hl with (hl | ⟨p, _, hl⟩) | hl
  · simp only [List.mem_cons, List.mem_singleton, List.not_mem_nil, or_false] at hl
    rcases hl with rfl | rfl | rfl <;> decide
  · exact event_lines_no_line_break env qth sat p (sec p) hsat hts l hl
  · simp only [List.mem_singleton] at hl
    subst hl
    decide

theorem ne_of_head_ne (a b : String) (h : a.data.head? ≠ b.data.head?) : a ≠ b :=
  fun e => h (by rw [e])

/-- None of the five property lines is one of the four markers. -/
theorem property_lines_ne_marker (env : Env) (qth : qth_t) (sat : String) (pass : pass_t)
    (T : Nat) (marker : String)
    (hm : marker.data.head? = some 'B' ∨ marker.data.head? = some 'E') :
    dtstart_line env pass ≠ marker ∧ dtend_line env pass ≠ marker
    ∧ summary_line sat pass ≠ marker ∧ uid_line env qth sat pass ≠ marker
    ∧ description_line pass T ≠ marker := by
  have h1 : (dtstart_line env pass).data.head? = some 'D' := rfl
  have h2 : (dtend_line env pass).data.head? = some 'D' := rfl
  have h3 : (summary_line sat pass).data.head? = some 'S' := rfl
  have h4 : (uid_line env qth sat pass).data.head? = some 'U' := rfl
  have h5 : (description_line pass T).data.head? = some 'D' := rfl
  refine ⟨?_, ?_, ?_, ?_, ?_⟩ <;> apply ne_of_head_ne <;>
    rcases hm with hm | hm <;> simp [h1, h2, h3, h4, h5, hm]

/-! ## Further lemmas for the statements -/

set_option maxRecDepth 8000

theorem sample_env_no_line_break :
    ∀ fmt t, ¬ has_line_break (sample_env.daynum_to_str fmt t) := by
  intro fmt t
  simp only [sample_env]
  split_ifs <;> decide

/-- The text built for one pass has the four markers nested once, whatever the
second count. -/
theorem one_event_nested_of_lines (env : Env) (pass : pass_t) (qth : qth_t) (sat : String)
    (T : Nat) (hsat : ¬ has_line_break sat)
    (hts : ∀ fmt t, ¬ has_line_break (env.daynum_to_str fmt t)) :
    one_event_nested (ical_header ++ event_text env qth sat pass T ++ ical_footer) := by
  unfold one_event_nested
  rw [pass_document_lines env pass qth sat T hsat hts]
  obtain ⟨a1, a2, a3, a4, a5⟩ :=
    property_lines_ne_marker env qth sat pass T "BEGIN:VCALENDAR" (Or.inl rfl)
  obtain ⟨b1, b2, b3, b4, b5⟩ :=
    property_lines_ne_marker env qth sat pass T "BEGIN:VEVENT" (Or.inl rfl)
  obtain ⟨c1, c2, c3, c4, c5⟩ :=
    property_lines_ne_marker env qth sat pass T "END:VEVENT" (Or.inr rfl)
  obtain ⟨d1, d2, d3, d4, d5⟩ :=
    property_lines_ne_marker env qth sat pass T "END:VCALENDAR" (Or.inr rfl)
  refine ⟨?_, ?_, ?_, ?_, rfl, ?_, ?_⟩
  · simp [event_lines, List.count_cons, a1, a2, a3, a4, a5]
  · simp [event_lines, List.count_cons, b1, b2, b3, b4, b5]
  · simp [event_lines, List.count_cons, c1, c2, c3, c4, c5]
  · simp [event_lines, List.count_cons, d1, d2, d3, d4, d5]
  · simp [event_lines]
  · have i1 : (["BEGIN:VCALENDAR", "VERSION:2.0", "CALSCALE:GREGORIAN"]
        ++ event_lines env qth sat pass T ++ ["END:VCALENDAR"]).indexOf "BEGIN:VEVENT" = 3 := by
      simp [event_lines, List.indexOf_cons]
    have i2 : (["BEGIN:VCALENDAR", "VERSION:2.0", "CALSCALE:GREGORIAN"]
        ++ event_lines env qth sat pass T ++ ["END:VCALENDAR"]).indexOf "END:VEVENT" = 9 := by
      simp [event_lines, List.indexOf_cons, c1, c2, c3, c4, c5]
    rw [i1, i2]
    norm_num

theorem fmt_02d_two_digits (n : Nat) (h : n < 60) : fmt_02d ((n : Nat) : Int) = two_digits n := by
  interval_cases n <;> rfl

/-- The `UID` line is the eighth line of the text built for one pass. -/
theorem pass_document_uid_line (env : Env) (pass : pass_t) (qth : qth_t) (sat : String)
    (doc : String) (hsat : ¬ has_line_break sat)
    (hts : ∀ fmt t, ¬ has_line_break (env.daynum_to_str fmt t))
    (h : save_pass_ical_data env pass qth sat = some doc) :
    (text_lines doc)[7]? = some (uid_line env qth sat pass) := by
  rw [pass_data_eq] at h
  cases hT : duration_seconds pass with
  | none => rw [hT] at h; cases h
  | some T =>
    rw [hT] at h
    cases h
    rw [pass_document_lines env pass qth sat T hsat hts]
    rfl

theorem ne_of_take_ne (a b : String) (n : Nat) (h : a.data.take n ≠ b.data.take n) : a ≠ b :=
  fun e => h (by rw [e])

/-- No message logged by `save_to_file` is an invalid-format message of an encoder. -/
theorem save_to_file_logs_no_invalid_format (env : Env) (fname data : String)
    (level : sat_log_level) (func : String) (n : Int)
    (hfunc : func = "save_pass_ical_exec" ∨ func = "save_passes_ical_exec") :
    Act.sat_log_log level (func ++ ": Invalid file format: " ++ fmt_d n)
      ∉ save_to_file env fname data := by
  have key : ∀ x y : String, "save_to_file: " ++ x ≠ func ++ y := by
    intro x y
    apply ne_of_take_ne _ _ 6
    rcases hfunc with rfl | rfl
    · show (['s', 'a', 'v', 'e', '_', 't'] : List Char) ≠ ['s', 'a', 'v', 'e', '_', 'p']
      decide
    · show (['s', 'a', 'v', 'e', '_', 't'] : List Char) ≠ ['s', 'a', 'v', 'e', '_', 'p']
      decide
  have k1 : ∀ a b c d : String, "save_to_file: Could not create file " ++ a ++ b ++ c ++ d
      ≠ func ++ ": Invalid file format: " ++ fmt_d n := by
    intro a b c d
    have := key ("Could not create file " ++ a ++ b ++ c ++ d) (": Invalid file format: " ++ fmt_d n)
    simpa only [String.append_assoc] using this
  have k2 : ∀ a b c d : String,
      "save_to_file: An error occurred while saving data to " ++ a ++ b ++ c ++ d
      ≠ func ++ ": Invalid file format: " ++ fmt_d n := by
    intro a b c d
    have := key ("An error occurred while saving data to " ++ a ++ b ++ c ++ d)
      (": Invalid file format: " ++ fmt_d n)
    simpa only [String.append_assoc] using this
  have k3 : ∀ a b c : String, "save_to_file: Written " ++ a ++ b ++ c
      ≠ func ++ ": Invalid file format: " ++ fmt_d n := by
    intro a b c
    have := key ("Written " ++ a ++ b ++ c) (": Invalid file format: " ++ fmt_d n)
    simpa only [String.append_assoc] using this
  unfold save_to_file
  cases env.new_file fname with
  | some message =>
    simp only [List.mem_cons, List.mem_singleton, List.not_mem_nil, or_false, Act.sat_log_log.injEq,
      false_or, or_false, not_and, reduceCtorEq]
    intro _ h
    exact k1 _ _ _ _ h.symm
  | none =>
    cases env.write_chars fname data with
    | error message =>
      simp only [List.mem_cons, List.mem_singleton, List.not_mem_nil, or_false,
        Act.sat_log_log.injEq, false_or, or_false, not_and, reduceCtorEq]
      intro _ h
      exact k2 _ _ _ _ h.symm
    | ok count =>
      simp only [List.mem_cons, List.mem_singleton, List.not_mem_nil, or_false,
        Act.sat_log_log.injEq, false_or, or_false, not_and, reduceCtorEq]
      intro _ h
      exact k3 _ _ _ h.symm

theorem pad_zero_two_digits (n : Nat) (h : n < 100) :
    pad_left '0' 2 (Nat.repr n) = two_digits n := by
  interval_cases n <;> rfl

/-- The conversion `%.2f` of a finite double: sign, integer part, point, two digits. -/
theorem fmt_f_two_finite (neg : Bool) (m : Nat) (e : Int) :
    fmt_f 2 (gdouble.finite neg m e)
      = (if neg = true then "-" else "") ++ (Nat.repr (scaled_decimal m e 2 / 100) ++ "."
          ++ two_digits (scaled_decimal m e 2 % 100)) := by
  have h : scaled_decimal m e 2 % 10 ^ 2 < 100 := Nat.mod_lt _ (by norm_num)
  simp only [fmt_f, decimal_digits, pad_zero_two_digits _ h]
  norm_num

theorem description_line_two_digits (pass : pass_t) (T : Nat) :
    description_line pass T
      = "DESCRIPTION:" ++ "Duration: " ++ two_digits ((T / 60) % 60) ++ ":"
        ++ two_digits (T % 60) ++ "\\n"
        ++ "AOS Azimuth:  " ++ fmt_wf 6 2 pass.aos_az ++ "\\n"
        ++ "LOS Azimuth:  " ++ fmt_wf 6 2 pass.los_az ++ "\\n" := by
  have hm : (T / 60) % 60 < 60 := Nat.mod_lt _ (by norm_num)
  have hs : T % 60 < 60 := Nat.mod_lt _ (by norm_num)
  simp only [description_line, fmt_02d_two_digits _ hm, fmt_02d_two_digits _ hs]

theorem two_digits_no_line_break (n : Nat) : ¬ has_line_break (two_digits n) := by
  unfold two_digits has_line_break
  simp only [List.mem_cons, List.mem_singleton, List.not_mem_nil, or_false, not_or]
  exact ⟨fun h => digitChar_ne_newline _ h.symm, fun h => digitChar_ne_newline _ h.symm⟩

/-- A finite non-negative double below 360 prints with `%.2f` in at most six
characters. -/
theorem fmt_two_length_le (m : Nat) (e : Int) (h360 : (m : ℚ) * (2 : ℚ) ^ e < 360) :
    (Nat.repr (scaled_decimal m e 2 / 100) ++ "."
      ++ two_digits (scaled_decimal m e 2 % 100)).length ≤ 6 := by
  obtain ⟨n1, _⟩ := scaled_decimal_nearest m e 2
  rw [abs_le] at n1
  have hq : ((scaled_decimal m e 2 : Nat) : ℚ) < 36001 := by
    have h100 : (10 : ℚ) ^ 2 = 100 := by norm_num
    have h := n1.1
    rw [h100] at h
    linarith
  have hN : scaled_decimal m e 2 < 36001 := by exact_mod_cast hq
  have hdiv : scaled_decimal m e 2 / 100 < 10 ^ 3 := by omega
  have hlen := Nat.repr_length _ 3 (by norm_num) hdiv
  have h2 : (two_digits (scaled_decimal m e 2 % 100)).length = 2 := rfl
  have h1 : (".": String).length = 1 := rfl
  rw [String.length_append, String.length_append, h1, h2]
  omega

theorem length_flatMap_seven {α β : Type} (f : α → List β) (hf : ∀ a, (f a).length = 7)
    (l : List α) : (l.flatMap f).length = 7 * l.length := by
  induction l with
  | nil => rfl
  | cons a l ih =>
    rw [List.flatMap_cons, List.length_append, hf a, ih, List.length_cons]
    ring

/-! ## Lemmas for degenerate passes and for the file sink -/

/-- The list encoder on a one-element list builds header, the block, footer. -/
theorem passes_data_singleton (env : Env) (pass : pass_t) (qth : qth_t) (sat : String) :
    save_passes_ical_data env [pass] qth sat
      = (duration_seconds pass).map
          (fun T => ical_header ++ event_text env qth sat pass T ++ ical_footer) := by
  rw [passes_data_eq, List.mapM_cons, List.mapM_nil, vevent_block_eq]
  cases duration_seconds pass with
  | none => rfl
  | some T => simp [join_cons, join_nil, pure]

/-- The single encoder and the list encoder on `[pass]` build the same text. -/
theorem pass_data_eq_passes_data (env : Env) (pass : pass_t) (qth : qth_t) (sat : String) :
    save_pass_ical_data env pass qth sat = save_passes_ical_data env [pass] qth sat := by
  rw [pass_data_eq, passes_data_singleton]

/-- With the ICS selector the single encoder hands its text to `save_to_file`. -/
theorem pass_exec_ics (env : Env) (pass : pass_t) (qth : qth_t)
    (savedir savefile sat : String) :
    save_pass_ical_exec env pass qth savedir savefile SAVE_FORMAT_ICS sat
      = (save_pass_ical_data env pass qth sat).map
          (save_to_file env (ics_file_name env savedir savefile)) := by
  unfold save_pass_ical_exec ics_file_name
  rw [if_pos rfl]
  cases save_pass_ical_data env pass qth sat <;> rfl

/-- With the ICS selector the list encoder hands its text to `save_to_file`. -/
theorem passes_exec_ics (env : Env) (passes : List pass_t) (qth : qth_t)
    (savedir savefile sat : String) :
    save_passes_ical_exec env passes qth savedir savefile SAVE_FORMAT_ICS sat
      = (save_passes_ical_data env passes qth sat).map
          (save_to_file env (ics_file_name env savedir savefile)) := by
  unfold save_passes_ical_exec ics_file_name
  rw [if_pos rfl]
  cases save_passes_ical_data env passes qth sat <;> rfl

/-- A product that cuts to zero gives the second count 0. -/
theorem duration_seconds_of_truncates_to_zero (pass : pass_t)
    (h : (duration_product pass).truncates_to_zero = true) : duration_seconds pass = some 0 := by
  unfold duration_seconds
  unfold duration_product at h
  cases hx : (pass.los.sub pass.aos).mul (gdouble.ofNat 86400) with
  | finite neg m e =>
    rw [hx] at h
    simp only [gdouble.truncates_to_zero, decide_eq_true_eq] at h
    simp only [gdouble.to_guint, h]
    cases neg <;> simp
  | inf neg => rw [hx] at h; simp [gdouble.truncates_to_zero] at h
  | nan neg => rw [hx] at h; simp [gdouble.truncates_to_zero] at h

/-- A finite double minus itself, times 86400, is zero. -/
theorem duration_product_of_equal (pass : pass_t) (neg : Bool) (m : Nat) (e : Int)
    (hlos : pass.los = gdouble.finite neg m e) (haos : pass.aos = gdouble.finite neg m e) :
    duration_product pass = gdouble.finite false 0 0 := by
  unfold duration_product
  rw [hlos, haos]
  have h86400 : gdouble.ofNat 86400 = gdouble.finite false 86400 0 := by decide
  have hsub : (gdouble.finite neg m e).sub (gdouble.finite neg m e)
      = gdouble.finite false 0 0 := by
    simp only [gdouble.sub, sub_self, if_true]
    cases neg <;> rfl
  rw [hsub, h86400]
  simp [gdouble.mul, round_binary64]

/-- A finite double is at most itself. -/
theorem le_self_of_finite (neg : Bool) (m : Nat) (e : Int) :
    (gdouble.finite neg m e).le (gdouble.finite neg m e) = true := by
  simp [gdouble.le]

/-- A finite double that cuts to zero has a magnitude below 1. -/
theorem magnitude_lt_one_of_truncates_to_zero (neg : Bool) (m : Nat) (e : Int)
    (h : (gdouble.finite neg m e).truncates_to_zero = true) :
    (m : ℚ) * (2 : ℚ) ^ e < 1 := by
  simp only [gdouble.truncates_to_zero, decide_eq_true_eq, trunc_magnitude] at h
  split_ifs at h with he
  · have hm : m = 0 := by
      rcases Nat.mul_eq_zero.mp h with h0 | h0
      · exact h0
      · exact absurd h0 (by positivity)
    rw [hm]
    norm_num
  · have hneg : e < 0 := not_le.mp he
    have hdpos : 0 < 2 ^ (-e).toNat := by positivity
    have hlt : m < 2 ^ (-e).toNat := by
      by_contra hge
      have : 0 < m / 2 ^ (-e).toNat := Nat.div_pos (not_lt.mp hge) hdpos
      omega
    have e2 : (2 : ℚ) ^ e = 1 / ((2 ^ (-e).toNat : Nat) : ℚ) := by
      have : e = -(((-e).toNat : Nat) : Int) := by
        rw [Int.toNat_of_nonneg (by omega)]; ring
      conv_lhs => rw [this]
      rw [zpow_neg, zpow_natCast]
      push_cast
      rw [one_div]
    have hdq : (0 : ℚ) < ((2 ^ (-e).toNat : Nat) : ℚ) := by exact_mod_cast hdpos
    rw [e2, mul_one_div, div_lt_one hdq]
    exact_mod_cast hlt

/-- Where ISO C defines the cast, its result is the value cut toward zero. -/
theorem to_guint_of_defined (neg : Bool) (m : Nat) (e : Int)
    (h : (gdouble.finite neg m e).guint_cast_defined = true) :
    (gdouble.finite neg m e).to_guint = some (trunc_magnitude m e) := by
  cases neg
  · simp only [gdouble.guint_cast_defined, Bool.false_eq_true, if_false,
      decide_eq_true_eq] at h
    have h63 : ¬ (2 ^ 63 ≤ trunc_magnitude m e) := by omega
    simp only [gdouble.to_guint, if_neg h63, Bool.false_eq_true, if_false]
    rw [Nat.mod_eq_of_lt h]
  · simp only [gdouble.guint_cast_defined, if_true, decide_eq_true_eq] at h
    simp [gdouble.to_guint, h]

/-- For `los <= aos` a finite product `(los - aos)*86400` is zero or negative. -/
theorem product_not_positive_of_le (pass : pass_t) (np : Bool) (mp : Nat) (ep : Int)
    (hle : pass.los.le pass.aos = true)
    (hp : duration_product pass = gdouble.finite np mp ep) :
    mp = 0 ∨ np = true := by
  obtain ⟨nl, ml, el, na, ma, ea, nd, md, ed, hl, ha, hd⟩ :=
    finite_parts_of_finite_product pass np mp ep hp
  unfold duration_product at hp
  rw [hd, ofNat_86400] at hp
  simp only [gdouble.mul] at hp
  rw [hl, ha] at hd hle
  simp only [gdouble.le, decide_eq_true_eq] at hle
  simp only [gdouble.sub] at hd
  generalize signed nl (ml * 2 ^ (el - min el ea).toNat) = a at hle hd
  generalize signed na (ma * 2 ^ (ea - min el ea).toNat) = b at hle hd
  by_cases h0 : a - b = 0
  · rw [if_pos h0] at hd
    injection hd with _ hmd _
    left
    rw [← hmd] at hp
    simp only [Nat.zero_mul, round_binary64, if_true] at hp
    injection hp with _ hmp _
    exact hmp.symm
  · rw [if_neg h0] at hd
    have hneg : decide (a - b < 0) = true := by
      rw [decide_eq_true_eq]; omega
    rw [hneg] at hd
    obtain ⟨hs, _⟩ := round_binary64_nearest _ _ _ _ _ _ hd
    obtain ⟨hs2, _⟩ := round_binary64_nearest _ _ _ _ _ _ hp
    right
    rw [hs2, hs]
    rfl

/-- The second count of a finite product that is zero or negative: 0 when the
magnitude is below 1 or is `2^63` or more, and otherwise the magnitude cut to a
whole number, negated and reduced modulo `2^32`. -/
theorem to_guint_not_positive (np : Bool) (mp : Nat) (ep : Int) (T : Nat)
    (hsign : mp = 0 ∨ np = true)
    (hT : (gdouble.finite np mp ep).to_guint = some T) :
    ((gdouble.finite np mp ep).guint_cast_defined = true ↔ (mp : ℚ) * (2 : ℚ) ^ ep < 1)
    ∧ ((mp : ℚ) * (2 : ℚ) ^ ep < 1 → T = 0)
    ∧ ((mp : ℚ) * (2 : ℚ) ^ ep < 2 ^ 63 →
        (T : Int) = (-(⌊(mp : ℚ) * (2 : ℚ) ^ ep⌋₊ : Int)) % 2 ^ 32)
    ∧ ((2 : ℚ) ^ 63 ≤ (mp : ℚ) * (2 : ℚ) ^ ep → T = 0) := by
  have hnn : (0 : ℚ) ≤ (mp : ℚ) * (2 : ℚ) ^ ep := by positivity
  have hfl0 : ⌊(mp : ℚ) * (2 : ℚ) ^ ep⌋₊ = 0 ↔ (mp : ℚ) * (2 : ℚ) ^ ep < 1 :=
    Nat.floor_eq_zero
  have hfl63 : ⌊(mp : ℚ) * (2 : ℚ) ^ ep⌋₊ < 2 ^ 63 ↔ (mp : ℚ) * (2 : ℚ) ^ ep < 2 ^ 63 := by
    rw [Nat.floor_lt hnn]
    norm_num
  simp only [gdouble.to_guint, gdouble.guint_cast_defined, trunc_magnitude_eq_floor] at hT ⊢
  generalize ⌊(mp : ℚ) * (2 : ℚ) ^ ep⌋₊ = t at hT hfl0 hfl63
  have key : ((if np = true then decide (t = 0) else decide (t < 2 ^ 32)) = true ↔ t = 0)
      ∧ (t = 0 → T = 0) ∧ (t < 2 ^ 63 → (T : Int) = (-(t : Int)) % 2 ^ 32)
      ∧ (¬ t < 2 ^ 63 → T = 0) := by
    rcases hsign with hm | hn
    · have ht : t = 0 := by
        rw [hfl0, hm]
        norm_num
      subst ht
      cases np <;> simp at hT <;> subst hT <;> simp
    · subst hn
      simp only [if_true, decide_eq_true_eq] at hT ⊢
      split_ifs at hT with h63
      · cases hT
        refine ⟨trivial, fun _ => rfl, fun h => absurd h (by omega), fun _ => rfl⟩
      · cases hT
        refine ⟨trivial, ?_, ?_, fun h => absurd (not_le.mp h63) h⟩
        · intro h; subst h; rfl
        · intro _
          push_cast
          omega
  obtain ⟨k1, k2, k3, k4⟩ := key
  refine ⟨k1.trans hfl0, fun h => k2 (hfl0.mpr h), fun h => k3 (hfl63.mpr h), fun h => k4 ?_⟩
  intro hlt
  exact absurd (hfl63.mp hlt) (not_lt.mpr h)

/-- The cast always gives a second count: the code has no exit there. -/
theorem to_guint_total (x : gdouble) : ∃ T : Nat, x.to_guint = some T := by
  cases x with
  | finite neg m e =>
    simp only [gdouble.to_guint]
    split_ifs <;> exact ⟨_, rfl⟩
  | inf _ => exact ⟨0, rfl⟩
  | nan _ => exact ⟨0, rfl⟩

/-- The second count of a product that is not finite is 0. -/
theorem to_guint_not_finite (x : gdouble) (h : x.is_finite = false) : x.to_guint = some 0 := by
  cases x with
  | finite neg m e => simp [gdouble.is_finite] at h
  | inf _ => rfl
  | nan _ => rfl

/-! ## The claims -/

/-- C1: for every list of passes, observer, time-zone mode and label, the text
built by `save_passes_ical_exec` is the three header lines, then the blocks of
the passes one after the other in the order of the list (the block of a pass
being what one round of the loop adds for it, which starts with `BEGIN:VEVENT`
and ends with `END:VEVENT`), then `END:VCALENDAR`; it exists exactly when the
second count of every pass is defined; for the empty list it is the header
followed at once by the footer, and for `[P1, P2]` the block of `P1` comes
before the block of `P2`. -/
theorem passes_document_is_header_blocks_footer (env : Env) (passes : List pass_t)
    (qth : qth_t) (sat : String) :
    save_passes_ical_data env passes qth sat
        = (passes.mapM (vevent_block env qth sat)).map
            (fun blocks => "BEGIN:VCALENDAR\nVERSION:2.0\nCALSCALE:GREGORIAN\n"
              ++ String.join blocks ++ "END:VCALENDAR\n")
    ∧ (save_passes_ical_data env passes qth sat).isSome
        = passes.all (fun pass => (duration_seconds pass).isSome)
    ∧ save_passes_ical_data env [] qth sat
        = some ("BEGIN:VCALENDAR\nVERSION:2.0\nCALSCALE:GREGORIAN\n" ++ "END:VCALENDAR\n")
    ∧ (∀ P1 P2 : pass_t, save_passes_ical_data env [P1, P2] qth sat
        = (vevent_block env qth sat P1).bind (fun b1 =>
            (vevent_block env qth sat P2).map (fun b2 =>
              "BEGIN:VCALENDAR\nVERSION:2.0\nCALSCALE:GREGORIAN\n" ++ b1 ++ b2
                ++ "END:VCALENDAR\n")))
    ∧ (∀ pass : pass_t, ∃ middle : Nat → String, vevent_block env qth sat pass
        = (duration_seconds pass).map (fun T =>
            "BEGIN:VEVENT\n" ++ middle T ++ "END:VEVENT\n")) := by
  refine ⟨passes_data_eq env passes qth sat, ?_, ?_, ?_, ?_⟩
  · rw [passes_data_eq, Option.isSome_map', mapM_blocks_isSome]
  · rw [passes_data_eq]; rfl
  · intro P1 P2
    rw [passes_data_eq, List.mapM_cons, List.mapM_cons, List.mapM_nil]
    cases vevent_block env qth sat P1 with
    | none => rfl
    | some b1 =>
      cases vevent_block env qth sat P2 with
      | none => rfl
      | some b2 =>
        simp [ical_header, ical_footer, join_cons, join_nil, String.append_assoc, pure]
  · intro pass
    refine ⟨fun T => dtstart_line env pass ++ "\n" ++ dtend_line env pass ++ "\n"
      ++ summary_line sat pass ++ "\n" ++ uid_line env qth sat pass ++ "\n"
      ++ description_line pass T ++ "\n", ?_⟩
    rw [vevent_block_eq]
    rfl

/-- C2: for every pass with `los > aos`, every observer, time-zone mode and
label without a line break (the time stamps of `daynum_to_str` holding none
either), a text is built by `save_pass_ical_exec` exactly when the second count
is defined, and the text built has exactly one line `BEGIN:VCALENDAR`, one line
`BEGIN:VEVENT`, one line `END:VEVENT` and one line `END:VCALENDAR`, in this
order, the first being the first line and the last the last line. -/
theorem single_pass_document_nests_one_event (env : Env) (pass : pass_t) (qth : qth_t)
    (sat : String) (_hlt : pass.aos.lt pass.los = true) (hsat : ¬ has_line_break sat)
    (hts : ∀ fmt t, ¬ has_line_break (env.daynum_to_str fmt t)) :
    (save_pass_ical_data env pass qth sat).isSome = (duration_seconds pass).isSome
    ∧ ∀ doc, save_pass_ical_data env pass qth sat = some doc → one_event_nested doc := by
  rw [pass_data_eq]
  refine ⟨Option.isSome_map', ?_⟩
  intro doc h
  cases hT : duration_seconds pass with
  | none => rw [hT] at h; cases h
  | some T =>
    rw [hT] at h
    cases h
    exact one_event_nested_of_lines env pass qth sat T hsat hts

/-- C2 at the sample pass: the hypotheses hold there, the text built is
`sample_document`, and its markers are nested once. -/
theorem single_pass_document_nests_one_event_witness :
    sample_pass.aos.lt sample_pass.los = true
    ∧ ¬ has_line_break "ISS"
    ∧ (∀ fmt t, ¬ has_line_break (sample_env.daynum_to_str fmt t))
    ∧ save_pass_ical_data sample_env sample_pass sample_qth "ISS" = some sample_document
    ∧ one_event_nested sample_document :=
  ⟨by decide, by decide, sample_env_no_line_break, by decide,
    (single_pass_document_nests_one_event sample_env sample_pass sample_qth "ISS"
      (by decide) (by decide) sample_env_no_line_break).2 sample_document (by decide)⟩

/-- C3: in both encoders the `DTSTART` line is `DTSTART`, the time-zone part
and the AOS time stamp, and the `DTEND` line is `DTEND`, the same time-zone
part and the LOS time stamp; the part is `:` in local time and `;TZID=UTC:`
otherwise, one and the same for both lines of every event of a document.  The
lines stand right after `BEGIN:VEVENT` in the text of `save_pass_ical_exec` and
in every block of the text of `save_passes_ical_exec`. -/
theorem dtstart_dtend_carry_timezone_part (env : Env) (qth : qth_t) (sat : String) :
    ∃ tz : String, tz = (if env.use_local_time = true then ":" else ";TZID=UTC:")
    ∧ (∀ pass : pass_t, save_pass_ical_data env pass qth sat
        = (duration_seconds pass).map (fun T =>
            "BEGIN:VCALENDAR\nVERSION:2.0\nCALSCALE:GREGORIAN\n" ++ "BEGIN:VEVENT\n"
            ++ "DTSTART" ++ tz ++ env.daynum_to_str "%Y%m%dT%H%M%S" pass.aos ++ "\n"
            ++ "DTEND" ++ tz ++ env.daynum_to_str "%Y%m%dT%H%M%S" pass.los ++ "\n"
            ++ summary_line sat pass ++ "\n" ++ uid_line env qth sat pass ++ "\n"
            ++ description_line pass T ++ "\n" ++ "END:VEVENT\n" ++ "END:VCALENDAR\n"))
    ∧ (∀ passes : List pass_t, save_passes_ical_data env passes qth sat
        = (passes.mapM (fun pass => (duration_seconds pass).map (fun T =>
            "BEGIN:VEVENT\n"
            ++ "DTSTART" ++ tz ++ env.daynum_to_str "%Y%m%dT%H%M%S" pass.aos ++ "\n"
            ++ "DTEND" ++ tz ++ env.daynum_to_str "%Y%m%dT%H%M%S" pass.los ++ "\n"
            ++ summary_line sat pass ++ "\n" ++ uid_line env qth sat pass ++ "\n"
            ++ description_line pass T ++ "\n" ++ "END:VEVENT\n"))).map
          (fun blocks => "BEGIN:VCALENDAR\nVERSION:2.0\nCALSCALE:GREGORIAN\n"
            ++ String.join blocks ++ "END:VCALENDAR\n")) := by
  refine ⟨timezone_part env, rfl, ?_, ?_⟩
  · intro pass
    rw [pass_data_eq]
    apply option_map_congr
    intro T
    simp only [event_text, dtstart_line, dtend_line, ical_header, ical_footer,
      String.append_assoc]
  · intro passes
    rw [passes_data_eq]
    have e : vevent_block env qth sat = fun pass => (duration_seconds pass).map (fun T =>
        "BEGIN:VEVENT\n"
        ++ "DTSTART" ++ timezone_part env ++ env.daynum_to_str "%Y%m%dT%H%M%S" pass.aos ++ "\n"
        ++ "DTEND" ++ timezone_part env ++ env.daynum_to_str "%Y%m%dT%H%M%S" pass.los ++ "\n"
        ++ summary_line sat pass ++ "\n" ++ uid_line env qth sat pass ++ "\n"
        ++ description_line pass T ++ "\n" ++ "END:VEVENT\n") := by
      funext pass
      rw [vevent_block_eq]
      apply option_map_congr
      intro T
      simp only [event_text, dtstart_line, dtend_line, String.append_assoc]
    rw [e]
    rfl

/-- C4: for a pass with `los > aos` whose product `(los - aos)*86400`, computed
in binary64, is a finite double `mp * 2^ep` below `2^32`: `aos` and `los` are
finite, the difference `los - aos` of the code is a positive double that is a
binary64 value nearest to the exact difference of `los` and `aos`, the product
is not negative and is a binary64 value nearest to the exact product of that
difference and 86400, and the second count `T` of both encoders is the floor of
the product, below `2^32`.  The extraction of the code in `guint` arithmetic,
`h = T / 3600`, `s = T - 3600*h`, `m = s / 60`, `s = s - 60*m`, gives
`m = floor(T / 60) mod 60` and `s = T mod 60`, both below 60, and in both
encoders the description is `Duration: MM:SS` with `MM` and `SS` these two
numbers in two digits, followed at once by the escaped line break and the
azimuths: the hours are not printed.  For `aos = 0.0` and `los = 1/1440` the
second count is 60 and the description starts with `Duration: 01:00`. -/
theorem duration_is_minutes_and_seconds (env : Env) (pass : pass_t) (qth : qth_t)
    (sat : String) (np : Bool) (mp : Nat) (ep : Int)
    (hlt : pass.aos.lt pass.los = true)
    (hp : duration_product pass = gdouble.finite np mp ep)
    (hrange : (mp : ℚ) * (2 : ℚ) ^ ep < 2 ^ 32) :
    ∃ (md : Nat) (ed : Int) (T : Nat),
      pass.aos.is_finite = true ∧ pass.los.is_finite = true
      ∧ 0 < pass.los.value - pass.aos.value
      ∧ pass.los.sub pass.aos = gdouble.finite false md ed
      ∧ nearest_binary64 (pass.los.value - pass.aos.value) ((md : ℚ) * (2 : ℚ) ^ ed)
      ∧ np = false
      ∧ nearest_binary64 ((md : ℚ) * (2 : ℚ) ^ ed * 86400) ((mp : ℚ) * (2 : ℚ) ^ ep)
      ∧ T = ⌊(mp : ℚ) * (2 : ℚ) ^ ep⌋₊
      ∧ duration_seconds pass = some T
      ∧ T < 2 ^ 32
      ∧ guint_sub T (guint_mul 3600 (T / 3600)) / 60 = (T / 60) % 60
      ∧ guint_sub (guint_sub T (guint_mul 3600 (T / 3600)))
          (guint_mul 60 (guint_sub T (guint_mul 3600 (T / 3600)) / 60)) = T % 60
      ∧ (T / 60) % 60 < 60 ∧ T % 60 < 60
      ∧ save_pass_ical_data env pass qth sat
          = some (ical_header ++ event_head env qth sat pass
              ++ "DESCRIPTION:" ++ "Duration: " ++ two_digits ((T / 60) % 60) ++ ":"
              ++ two_digits (T % 60) ++ "\\n"
              ++ "AOS Azimuth:  " ++ fmt_wf 6 2 pass.aos_az ++ "\\n"
              ++ "LOS Azimuth:  " ++ fmt_wf 6 2 pass.los_az ++ "\\n" ++ "\n"
              ++ "END:VEVENT\n" ++ ical_footer)
      ∧ vevent_block env qth sat pass
          = some (event_head env qth sat pass
              ++ "DESCRIPTION:" ++ "Duration: " ++ two_digits ((T / 60) % 60) ++ ":"
              ++ two_digits (T % 60) ++ "\\n"
              ++ "AOS Azimuth:  " ++ fmt_wf 6 2 pass.aos_az ++ "\\n"
              ++ "LOS Azimuth:  " ++ fmt_wf 6 2 pass.los_az ++ "\\n" ++ "\n"
              ++ "END:VEVENT\n")
      ∧ (pass.aos = gdouble.ofNat 0 → pass.los = gdouble.ofFrac 1 1440 →
          T = 60 ∧ "Duration: " ++ two_digits ((T / 60) % 60) ++ ":" ++ two_digits (T % 60)
            = "Duration: 01:00") := by
  obtain ⟨nl, ml, el, na, ma, ea, nd, md, ed, hl, ha, hd⟩ :=
    finite_parts_of_finite_product pass np mp ep hp
  have hd' := hd
  rw [hl, ha] at hd' hlt
  obtain ⟨hnd, hpos⟩ := sub_positive_of_lt nl ml el na ma ea nd md ed hlt hd'
  have hnear := sub_value_nearest nl ml el na ma ea nd md ed hd'
  subst hnd
  have hvd : (gdouble.finite false md ed).value = (md : ℚ) * (2 : ℚ) ^ ed := by
    simp [gdouble.value]
  rw [hvd] at hnear
  have hp' := hp
  unfold duration_product at hp'
  rw [hd, ofNat_86400] at hp'
  simp only [gdouble.mul] at hp'
  obtain ⟨hnp, hnearp⟩ := round_binary64_nearest _ _ _ _ _ _ hp'
  have hnp' : np = false := by rw [hnp]; rfl
  subst hnp'
  have hprod : (((md * 86400 : Nat) : ℚ)) * (2 : ℚ) ^ (ed + 0)
      = (md : ℚ) * (2 : ℚ) ^ ed * 86400 := by
    rw [add_zero]; push_cast; ring
  rw [hprod] at hnearp
  have hT : duration_seconds pass = some ⌊(mp : ℚ) * (2 : ℚ) ^ ep⌋₊ := by
    have e : duration_seconds pass = (duration_product pass).to_guint := rfl
    rw [e, hp]
    exact to_guint_in_range mp ep hrange
  obtain ⟨T, hTdef⟩ : ∃ T : Nat, T = ⌊(mp : ℚ) * (2 : ℚ) ^ ep⌋₊ := ⟨_, rfl⟩
  rw [← hTdef] at hT
  have hlt32 := duration_seconds_lt pass T hT
  obtain ⟨e1, e2, e3⟩ := hms_extraction T hlt32
  have hm : (T / 60) % 60 < 60 := Nat.mod_lt _ (by norm_num)
  have hs : T % 60 < 60 := Nat.mod_lt _ (by norm_num)
  refine ⟨md, ed, T, ?_, ?_, ?_, hd, ?_, rfl, hnearp, hTdef, hT, hlt32, ?_, ?_, hm, hs, ?_, ?_, ?_⟩
  · rw [ha]; rfl
  · rw [hl]; rfl
  · rw [hl, ha]; exact hpos
  · rw [hl, ha]; exact hnear
  · rw [e1, e2]
  · rw [e1, e3]
  · rw [pass_data_eq, hT, Option.map_some']
    simp only [event_text, event_head, description_line, fmt_02d_two_digits _ hm,
      fmt_02d_two_digits _ hs, String.append_assoc]
  · rw [vevent_block_eq, hT, Option.map_some']
    simp only [event_text, event_head, description_line, fmt_02d_two_digits _ hm,
      fmt_02d_two_digits _ hs, String.append_assoc]
  · intro ha0 hl0
    have h60 : duration_seconds pass = some 60 := by
      unfold duration_seconds
      rw [ha0, hl0]
      decide
    rw [h60] at hT
    cases hT
    exact ⟨rfl, by decide⟩

/-- C4 at the sample pass given by Julian dates, where `aos` is not zero and the
product is the double `1315763222400 * 2^-31`, a little less than 612.7 and no
whole number: the second count is 612 and the description starts with
`Duration: 10:12`; and at the sample pass of one minute, `Duration: 01:00`. -/
theorem duration_is_minutes_and_seconds_witness :
    (sample_pass_julian.aos.lt sample_pass_julian.los = true
      ∧ sample_pass_julian.aos = gdouble.finite false 5282810847821824 (-31)
      ∧ sample_pass_julian.los = gdouble.finite false 5282810863050565 (-31)
      ∧ duration_product sample_pass_julian = gdouble.finite false 1315763222400 (-31)
      ∧ (612 : ℚ) < ((1315763222400 : Nat) : ℚ) * (2 : ℚ) ^ (-31 : Int)
      ∧ ((1315763222400 : Nat) : ℚ) * (2 : ℚ) ^ (-31 : Int) < 613
      ∧ ∃ (md : Nat) (ed : Int) (T : Nat),
        0 < sample_pass_julian.los.value - sample_pass_julian.aos.value
        ∧ sample_pass_julian.los.sub sample_pass_julian.aos = gdouble.finite false md ed
        ∧ nearest_binary64 (sample_pass_julian.los.value - sample_pass_julian.aos.value)
            ((md : ℚ) * (2 : ℚ) ^ ed)
        ∧ nearest_binary64 ((md : ℚ) * (2 : ℚ) ^ ed * 86400)
            (((1315763222400 : Nat) : ℚ) * (2 : ℚ) ^ (-31 : Int))
        ∧ T = ⌊((1315763222400 : Nat) : ℚ) * (2 : ℚ) ^ (-31 : Int)⌋₊
        ∧ T = 612
        ∧ duration_seconds sample_pass_julian = some T
        ∧ save_pass_ical_data sample_env sample_pass_julian sample_qth "ISS"
            = some (ical_header ++ event_head sample_env sample_qth "ISS" sample_pass_julian
                ++ "DESCRIPTION:" ++ "Duration: " ++ two_digits ((T / 60) % 60) ++ ":"
                ++ two_digits (T % 60) ++ "\\n"
                ++ "AOS Azimuth:  " ++ fmt_wf 6 2 sample_pass_julian.aos_az ++ "\\n"
                ++ "LOS Azimuth:  " ++ fmt_wf 6 2 sample_pass_julian.los_az ++ "\\n" ++ "\n"
                ++ "END:VEVENT\n" ++ ical_footer)
        ∧ "Duration: " ++ two_digits ((T / 60) % 60) ++ ":" ++ two_digits (T % 60)
            = "Duration: 10:12")
    ∧ (sample_pass.aos.lt sample_pass.los = true
      ∧ duration_product sample_pass = gdouble.finite false 8444249301319680 (-47)
      ∧ ∃ (md : Nat) (ed : Int) (T : Nat),
        sample_pass.los.sub sample_pass.aos = gdouble.finite false md ed
        ∧ T = ⌊((8444249301319680 : Nat) : ℚ) * (2 : ℚ) ^ (-47 : Int)⌋₊
        ∧ T = 60
        ∧ duration_seconds sample_pass = some T
        ∧ "Duration: " ++ two_digits ((T / 60) % 60) ++ ":" ++ two_digits (T % 60)
            = "Duration: 01:00") := by
  have hj := duration_is_minutes_and_seconds sample_env sample_pass_julian sample_qth "ISS"
    false 1315763222400 (-31) (by decide) (by decide) (by norm_num)
  have hs := duration_is_minutes_and_seconds sample_env sample_pass sample_qth "ISS"
    false 8444249301319680 (-47) (by decide) (by decide) (by norm_num)
  obtain ⟨md, ed, T, _, _, j3, j4, j5, _, j7, j8, j9, _, _, _, _, _, j15, _, _⟩ := hj
  obtain ⟨md', ed', T', _, _, _, s4, _, _, _, s8, s9, _, _, _, _, _, _, _, s17⟩ := hs
  have hT612 : T = 612 := by
    have h : duration_seconds sample_pass_julian = some 612 := by decide
    rw [h] at j9
    exact (Option.some.inj j9).symm
  refine ⟨⟨by decide, by decide, by decide, by decide, by norm_num, by norm_num,
    md, ed, T, j3, j4, j5, j7, j8, hT612, j9, j15, ?_⟩,
    by decide, by decide, md', ed', T', s4, s8, (s17 rfl rfl).1, s9, (s17 rfl rfl).2⟩
  rw [hT612]
  decide

/-- C5: in both encoders the `SUMMARY` line is `SUMMARY:`, the label, a space,
`[`, the maximum elevation rounded to a nearest integer `r` (the even one at a
tie) written in decimal without fractional digits (after a minus sign when the
sign bit is set), and `°]`; the claim is about a finite maximum elevation.  For
the double nearest to 45.6 the text between the brackets is `46`. -/
theorem summary_carries_rounded_elevation (env : Env) (pass : pass_t) (qth : qth_t)
    (sat : String) (neg : Bool) (m : Nat) (e : Int)
    (hfin : pass.max_el = gdouble.finite neg m e) :
    ∃ r : Nat,
      |(m : ℚ) * (2 : ℚ) ^ e - (r : ℚ)| ≤ 1 / 2
      ∧ (|(m : ℚ) * (2 : ℚ) ^ e - (r : ℚ)| = 1 / 2 → r % 2 = 0)
      ∧ save_pass_ical_data env pass qth sat
          = (duration_seconds pass).map (fun T =>
              ical_header ++ "BEGIN:VEVENT\n" ++ dtstart_line env pass ++ "\n"
              ++ dtend_line env pass ++ "\n"
              ++ "SUMMARY:" ++ sat ++ " [" ++ (if neg = true then "-" else "") ++ Nat.repr r
              ++ "°]" ++ "\n"
              ++ uid_line env qth sat pass ++ "\n" ++ description_line pass T ++ "\n"
              ++ "END:VEVENT\n" ++ ical_footer)
      ∧ vevent_block env qth sat pass
          = (duration_seconds pass).map (fun T =>
              "BEGIN:VEVENT\n" ++ dtstart_line env pass ++ "\n"
              ++ dtend_line env pass ++ "\n"
              ++ "SUMMARY:" ++ sat ++ " [" ++ (if neg = true then "-" else "") ++ Nat.repr r
              ++ "°]" ++ "\n"
              ++ uid_line env qth sat pass ++ "\n" ++ description_line pass T ++ "\n"
              ++ "END:VEVENT\n")
      ∧ (pass.max_el = gdouble.ofFrac 456 10 →
          (if neg = true then "-" else "") ++ Nat.repr r = "46") := by
  obtain ⟨n1, n2⟩ := scaled_decimal_nearest m e 0
  rw [pow_zero, mul_one] at n1 n2
  have hs : summary_line sat pass
      = "SUMMARY:" ++ sat ++ " [" ++ (if neg = true then "-" else "")
          ++ Nat.repr (scaled_decimal m e 0) ++ "°]" := by
    simp only [summary_line, hfin, fmt_f, decimal_digits, if_true, String.append_assoc]
  refine ⟨scaled_decimal m e 0, n1, n2, ?_, ?_, ?_⟩
  · rw [pass_data_eq]
    apply option_map_congr
    intro T
    simp only [event_text, hs, String.append_assoc]
  · rw [vevent_block_eq]
    apply option_map_congr
    intro T
    simp only [event_text, hs, String.append_assoc]
  · intro h456
    rw [hfin] at h456
    have h := congrArg (fmt_f 0) h456
    simp only [fmt_f, decimal_digits, if_true] at h
    rw [h]
    decide

/-- C5 at the sample pass, whose maximum elevation is the double nearest to
45.6: the summary reads `ISS [46°]`. -/
theorem summary_carries_rounded_elevation_witness :
    sample_pass.max_el = gdouble.finite false 6417629469002957 (-47)
    ∧ ∃ r : Nat,
      |((6417629469002957 : Nat) : ℚ) * (2 : ℚ) ^ (-47 : Int) - (r : ℚ)| ≤ 1 / 2
      ∧ save_pass_ical_data sample_env sample_pass sample_qth "ISS"
          = (duration_seconds sample_pass).map (fun T =>
              ical_header ++ "BEGIN:VEVENT\n" ++ dtstart_line sample_env sample_pass ++ "\n"
              ++ dtend_line sample_env sample_pass ++ "\n"
              ++ "SUMMARY:" ++ "ISS" ++ " [" ++ (if false = true then "-" else "") ++ Nat.repr r
              ++ "°]" ++ "\n"
              ++ uid_line sample_env sample_qth "ISS" sample_pass ++ "\n"
              ++ description_line sample_pass T ++ "\n"
              ++ "END:VEVENT\n" ++ ical_footer)
      ∧ (if false = true then "-" else "") ++ Nat.repr r = "46" := by
  refine ⟨by decide, ?_⟩
  obtain ⟨r, h1, _, h3, _, h5⟩ :=
    summary_carries_rounded_elevation sample_env sample_pass sample_qth "ISS"
      false 6417629469002957 (-47) (by decide)
  exact ⟨r, h1, h3, h5 (by decide)⟩

/-- C6: in both encoders the `UID` line is `UID:`, the label, the orbit number
in decimal, the AOS stamp of format `%Y%m%d%H`, `@`, the latitude and the
longitude (both as `%f`).  It depends on these five inputs only: when label,
observer and time stamps hold no line break, two passes with the same orbit
number and the same AOS hour stamp get the same `UID` line (the eighth line of
the text) whatever their LOS, maximum elevation and azimuths, and there are
distinct passes that collide in this way. -/
theorem uid_depends_on_five_inputs (env : Env) (qth : qth_t) (sat : String) :
    (∀ pass : pass_t, save_pass_ical_data env pass qth sat
        = (duration_seconds pass).map (fun T =>
            ical_header ++ "BEGIN:VEVENT\n" ++ dtstart_line env pass ++ "\n"
            ++ dtend_line env pass ++ "\n" ++ summary_line sat pass ++ "\n"
            ++ "UID:" ++ sat ++ fmt_d pass.orbit ++ env.daynum_to_str "%Y%m%d%H" pass.aos
            ++ "@" ++ fmt_f 6 qth.lat ++ fmt_f 6 qth.lon ++ "\n"
            ++ description_line pass T ++ "\n" ++ "END:VEVENT\n" ++ ical_footer))
    ∧ (∀ pass : pass_t, vevent_block env qth sat pass
        = (duration_seconds pass).map (fun T =>
            "BEGIN:VEVENT\n" ++ dtstart_line env pass ++ "\n"
            ++ dtend_line env pass ++ "\n" ++ summary_line sat pass ++ "\n"
            ++ "UID:" ++ sat ++ fmt_d pass.orbit ++ env.daynum_to_str "%Y%m%d%H" pass.aos
            ++ "@" ++ fmt_f 6 qth.lat ++ fmt_f 6 qth.lon ++ "\n"
            ++ description_line pass T ++ "\n" ++ "END:VEVENT\n"))
    ∧ (¬ has_line_break sat → (∀ fmt t, ¬ has_line_break (env.daynum_to_str fmt t)) →
        ∀ (p1 p2 : pass_t) (doc1 doc2 : String),
          p1.orbit = p2.orbit →
          env.daynum_to_str "%Y%m%d%H" p1.aos = env.daynum_to_str "%Y%m%d%H" p2.aos →
          save_pass_ical_data env p1 qth sat = some doc1 →
          save_pass_ical_data env p2 qth sat = some doc2 →
          (text_lines doc1)[7]? = (text_lines doc2)[7]?
          ∧ (text_lines doc1)[7]? = some ("UID:" ++ sat ++ fmt_d p1.orbit
              ++ env.daynum_to_str "%Y%m%d%H" p1.aos ++ "@" ++ fmt_f 6 qth.lat
              ++ fmt_f 6 qth.lon))
    ∧ (∃ (e : Env) (p1 p2 : pass_t) (doc1 doc2 : String),
        p1.los ≠ p2.los ∧ save_pass_ical_data e p1 qth "ISS" = some doc1
        ∧ save_pass_ical_data e p2 qth "ISS" = some doc2
        ∧ doc1 ≠ doc2 ∧ (text_lines doc1)[7]? = (text_lines doc2)[7]?) := by
  refine ⟨?_, ?_, ?_, ?_⟩
  · intro pass
    rw [pass_data_eq]
    apply option_map_congr
    intro T
    simp only [event_text, uid_line, String.append_assoc]
  · intro pass
    rw [vevent_block_eq]
    apply option_map_congr
    intro T
    simp only [event_text, uid_line, String.append_assoc]
  · intro hsat hts p1 p2 doc1 doc2 horb hstamp h1 h2
    rw [pass_document_uid_line env p1 qth sat doc1 hsat hts h1,
      pass_document_uid_line env p2 qth sat doc2 hsat hts h2]
    refine ⟨?_, rfl⟩
    simp only [uid_line, horb, hstamp]
  · have d1 : duration_seconds sample_pass = some 60 := by decide
    have d2 : duration_seconds sample_pass_other = some 120 := by decide
    have h1 := pass_data_eq sample_env sample_pass qth "ISS"
    have h2 := pass_data_eq sample_env sample_pass_other qth "ISS"
    rw [d1, Option.map_some'] at h1
    rw [d2, Option.map_some'] at h2
    refine ⟨sample_env, sample_pass, sample_pass_other, _, _, by decide, h1, h2, ?_, ?_⟩
    · intro hne
      have hl := congrArg (fun s => (text_lines s)[6]?) hne
      simp only [pass_document_lines sample_env _ qth "ISS" _ (by decide)
        sample_env_no_line_break] at hl
      have hl2 : some (summary_line "ISS" sample_pass)
          = some (summary_line "ISS" sample_pass_other) := hl
      revert hl2
      decide
    · rw [pass_document_uid_line sample_env sample_pass qth "ISS" _ (by decide)
          sample_env_no_line_break h1,
        pass_document_uid_line sample_env sample_pass_other qth "ISS" _ (by decide)
          sample_env_no_line_break h2]
      rfl

/-- C6 at the two sample passes, which differ in LOS, elevation and azimuths
and share orbit and AOS: the `UID` lines are the same. -/
theorem uid_depends_on_five_inputs_witness :
    ¬ has_line_break "ISS"
    ∧ (∀ fmt t, ¬ has_line_break (sample_env.daynum_to_str fmt t))
    ∧ sample_pass.orbit = sample_pass_other.orbit
    ∧ sample_pass.los ≠ sample_pass_other.los
    ∧ ∃ doc1 doc2 : String,
        save_pass_ical_data sample_env sample_pass sample_qth "ISS" = some doc1
        ∧ save_pass_ical_data sample_env sample_pass_other sample_qth "ISS" = some doc2
        ∧ (text_lines doc1)[7]? = (text_lines doc2)[7]?
        ∧ (text_lines doc1)[7]? = some "UID:ISS12342024010112@55.60000012.300000" := by
  have d1 : duration_seconds sample_pass = some 60 := by decide
  have d2 : duration_seconds sample_pass_other = some 120 := by decide
  have h1 := pass_data_eq sample_env sample_pass sample_qth "ISS"
  have h2 := pass_data_eq sample_env sample_pass_other sample_qth "ISS"
  rw [d1, Option.map_some'] at h1
  rw [d2, Option.map_some'] at h2
  have h := (uid_depends_on_five_inputs sample_env sample_qth "ISS").2.2.1 (by decide)
    sample_env_no_line_break sample_pass sample_pass_other _ _ rfl rfl h1 h2
  refine ⟨by decide, sample_env_no_line_break, rfl, by decide, _, _, h1, h2, h.1, ?_⟩
  rw [h.2]
  decide

/-- C7: for a format selector other than `SAVE_FORMAT_ICS` (1) each encoder
does one thing only, it logs the error `Invalid file format: <format>`: no text
is built and `save_to_file` is not called, so no file is created or written.
For `SAVE_FORMAT_ICS` each encoder hands its text to `save_to_file` under the
name `savedir/savefile.ics` and logs no invalid-format error. -/
theorem invalid_format_logs_and_stops (env : Env) (pass : pass_t) (passes : List pass_t)
    (qth : qth_t) (savedir savefile : String) (format : Int) (sat : String)
    (hfmt : format ≠ SAVE_FORMAT_ICS) :
    save_pass_ical_exec env pass qth savedir savefile format sat
        = some [Act.sat_log_log sat_log_level.SAT_LOG_LEVEL_ERROR
            ("save_pass_ical_exec: Invalid file format: " ++ fmt_d format)]
    ∧ save_passes_ical_exec env passes qth savedir savefile format sat
        = some [Act.sat_log_log sat_log_level.SAT_LOG_LEVEL_ERROR
            ("save_passes_ical_exec: Invalid file format: " ++ fmt_d format)]
    ∧ save_pass_ical_exec env pass qth savedir savefile SAVE_FORMAT_ICS sat
        = (save_pass_ical_data env pass qth sat).map
            (save_to_file env (savedir ++ env.dir_separator ++ savefile ++ ".ics"))
    ∧ save_passes_ical_exec env passes qth savedir savefile SAVE_FORMAT_ICS sat
        = (save_passes_ical_data env passes qth sat).map
            (save_to_file env (savedir ++ env.dir_separator ++ savefile ++ ".ics"))
    ∧ (∀ (acts : List Act) (level : sat_log_level) (n : Int),
        (save_pass_ical_exec env pass qth savedir savefile SAVE_FORMAT_ICS sat = some acts
          ∨ save_passes_ical_exec env passes qth savedir savefile SAVE_FORMAT_ICS sat
              = some acts) →
        Act.sat_log_log level ("save_pass_ical_exec: Invalid file format: " ++ fmt_d n) ∉ acts
        ∧ Act.sat_log_log level ("save_passes_ical_exec: Invalid file format: " ++ fmt_d n)
            ∉ acts) := by
  have e1 : save_pass_ical_exec env pass qth savedir savefile SAVE_FORMAT_ICS sat
      = (save_pass_ical_data env pass qth sat).map
          (save_to_file env (savedir ++ env.dir_separator ++ savefile ++ ".ics")) := by
    unfold save_pass_ical_exec
    rw [if_pos rfl]
    cases save_pass_ical_data env pass qth sat <;> rfl
  have e2 : save_passes_ical_exec env passes qth savedir savefile SAVE_FORMAT_ICS sat
      = (save_passes_ical_data env passes qth sat).map
          (save_to_file env (savedir ++ env.dir_separator ++ savefile ++ ".ics")) := by
    unfold save_passes_ical_exec
    rw [if_pos rfl]
    cases save_passes_ical_data env passes qth sat <;> rfl
  refine ⟨?_, ?_, e1, e2, ?_⟩
  · unfold save_pass_ical_exec
    rw [if_neg hfmt]
  · unfold save_passes_ical_exec
    rw [if_neg hfmt]
  · intro acts level n h
    have hacts : ∃ fname data, acts = save_to_file env fname data := by
      rcases h with h | h
      · rw [e1] at h
        cases hd : save_pass_ical_data env pass qth sat with
        | none => rw [hd] at h; cases h
        | some data => rw [hd] at h; cases h; exact ⟨_, _, rfl⟩
      · rw [e2] at h
        cases hd : save_passes_ical_data env passes qth sat with
        | none => rw [hd] at h; cases h
        | some data => rw [hd] at h; cases h; exact ⟨_, _, rfl⟩
    obtain ⟨fname, data, rfl⟩ := hacts
    exact ⟨save_to_file_logs_no_invalid_format env fname data level _ n (Or.inl rfl),
      save_to_file_logs_no_invalid_format env fname data level _ n (Or.inr rfl)⟩

/-- C7 at the selector 2 for the sample pass: one log entry, nothing else. -/
theorem invalid_format_logs_and_stops_witness :
    (2 : Int) ≠ SAVE_FORMAT_ICS
    ∧ save_pass_ical_exec sample_env sample_pass sample_qth "/tmp" "iss" 2 "ISS"
        = some [Act.sat_log_log sat_log_level.SAT_LOG_LEVEL_ERROR
            "save_pass_ical_exec: Invalid file format: 2"]
    ∧ save_passes_ical_exec sample_env [sample_pass] sample_qth "/tmp" "iss" 2 "ISS"
        = some [Act.sat_log_log sat_log_level.SAT_LOG_LEVEL_ERROR
            "save_passes_ical_exec: Invalid file format: 2"] :=
  have h := invalid_format_logs_and_stops sample_env sample_pass [sample_pass] sample_qth
    "/tmp" "iss" 2 "ISS" (by decide)
  ⟨by decide, h.1, h.2.1⟩

/-- C8: in both encoders the `DESCRIPTION` property is `DESCRIPTION:` followed
by the duration, the AOS azimuth and the LOS azimuth in this order, each ended
by the two characters backslash and `n`; none of the three parts and nothing
else of the property holds a line break, and the one line break of the property
comes right after the third escaped one, before `END:VEVENT`. -/
theorem description_is_one_physical_line (env : Env) (pass : pass_t) (qth : qth_t)
    (sat : String) :
    "\\n".data = ['\\', 'n']
    ∧ (∀ T : Nat, ¬ has_line_break
        ("Duration: " ++ two_digits ((T / 60) % 60) ++ ":" ++ two_digits (T % 60)))
    ∧ ¬ has_line_break ("AOS Azimuth:  " ++ fmt_wf 6 2 pass.aos_az)
    ∧ ¬ has_line_break ("LOS Azimuth:  " ++ fmt_wf 6 2 pass.los_az)
    ∧ (∀ T : Nat, ¬ has_line_break
        ("DESCRIPTION:"
          ++ ("Duration: " ++ two_digits ((T / 60) % 60) ++ ":" ++ two_digits (T % 60)) ++ "\\n"
          ++ ("AOS Azimuth:  " ++ fmt_wf 6 2 pass.aos_az) ++ "\\n"
          ++ ("LOS Azimuth:  " ++ fmt_wf 6 2 pass.los_az) ++ "\\n"))
    ∧ save_pass_ical_data env pass qth sat
        = (duration_seconds pass).map (fun T =>
            ical_header ++ event_head env qth sat pass
            ++ ("DESCRIPTION:"
              ++ ("Duration: " ++ two_digits ((T / 60) % 60) ++ ":" ++ two_digits (T % 60))
              ++ "\\n"
              ++ ("AOS Azimuth:  " ++ fmt_wf 6 2 pass.aos_az) ++ "\\n"
              ++ ("LOS Azimuth:  " ++ fmt_wf 6 2 pass.los_az) ++ "\\n")
            ++ "\n" ++ "END:VEVENT\n" ++ ical_footer)
    ∧ vevent_block env qth sat pass
        = (duration_seconds pass).map (fun T =>
            event_head env qth sat pass
            ++ ("DESCRIPTION:"
              ++ ("Duration: " ++ two_digits ((T / 60) % 60) ++ ":" ++ two_digits (T % 60))
              ++ "\\n"
              ++ ("AOS Azimuth:  " ++ fmt_wf 6 2 pass.aos_az) ++ "\\n"
              ++ ("LOS Azimuth:  " ++ fmt_wf 6 2 pass.los_az) ++ "\\n")
            ++ "\n" ++ "END:VEVENT\n") := by
  have c1 : ¬ has_line_break "Duration: " := by decide
  have c2 : ¬ has_line_break ":" := by decide
  have c3 : ¬ has_line_break "AOS Azimuth:  " := by decide
  have c4 : ¬ has_line_break "LOS Azimuth:  " := by decide
  have c5 : ¬ has_line_break "DESCRIPTION:" := by decide
  have c6 : ¬ has_line_break "\\n" := by decide
  have ha := fmt_wf_no_line_break 6 2 pass.aos_az
  have hl := fmt_wf_no_line_break 6 2 pass.los_az
  have hd : ∀ T : Nat, ¬ has_line_break
      ("Duration: " ++ two_digits ((T / 60) % 60) ++ ":" ++ two_digits (T % 60)) := by
    intro T
    have t1 := two_digits_no_line_break ((T / 60) % 60)
    have t2 := two_digits_no_line_break (T % 60)
    simp only [has_line_break_append]
    tauto
  have h2 : ¬ has_line_break ("AOS Azimuth:  " ++ fmt_wf 6 2 pass.aos_az) := by
    simp only [has_line_break_append]; tauto
  have h3 : ¬ has_line_break ("LOS Azimuth:  " ++ fmt_wf 6 2 pass.los_az) := by
    simp only [has_line_break_append]; tauto
  refine ⟨rfl, hd, h2, h3, ?_, ?_, ?_⟩
  · intro T
    have h1 := hd T
    simp only [has_line_break_append] at h1 h2 h3 ⊢
    tauto
  · rw [pass_data_eq]
    apply option_map_congr
    intro T
    simp only [event_text, event_head, description_line_two_digits, String.append_assoc]
  · rw [vevent_block_eq]
    apply option_map_congr
    intro T
    simp only [event_text, event_head, description_line_two_digits, String.append_assoc]

/-- C9 as it is worded fails at the sample pass, whose AOS azimuth is 45.0:
the text built is `sample_document`, whose `DESCRIPTION` line (the ninth line)
has `AOS Azimuth:` and three spaces before `45.00`, not two, so it is not the
line made of the parts as the claim words them. -/
theorem azimuth_two_spaces_counterexample :
    save_pass_ical_data sample_env sample_pass sample_qth "ISS" = some sample_document
    ∧ (text_lines sample_document)[8]?
        = some "DESCRIPTION:Duration: 01:00\\nAOS Azimuth:   45.00\\nLOS Azimuth:  310.50\\n"
    ∧ azimuth_part_as_claimed "AOS Azimuth" sample_pass.aos_az = "AOS Azimuth:  45.00"
    ∧ azimuth_part_as_claimed "LOS Azimuth" sample_pass.los_az = "LOS Azimuth:  310.50"
    ∧ (text_lines sample_document)[8]?
        ≠ some ("DESCRIPTION:Duration: 01:00\\n"
            ++ azimuth_part_as_claimed "AOS Azimuth" sample_pass.aos_az ++ "\\n"
            ++ azimuth_part_as_claimed "LOS Azimuth" sample_pass.los_az ++ "\\n") := by
  refine ⟨by decide, by decide, by decide, by decide, by decide⟩

/-- C9 as amended: in both encoders, for a pass whose azimuths are finite,
with the sign bit clear and below 360, each azimuth part is the label, a colon,
two spaces, and then the azimuth with exactly two fractional digits (the
nearest multiple of 0.01) right-aligned in six columns: a rendering of fewer
than six characters is preceded by as many further spaces as it lacks.  For
45.0 the part is `AOS Azimuth:   45.00`, with three spaces. -/
theorem azimuth_parts_right_aligned (env : Env) (pass : pass_t) (qth : qth_t) (sat : String)
    (ma : Nat) (ea : Int) (ml : Nat) (el : Int)
    (ha : pass.aos_az = gdouble.finite false ma ea) (ha360 : (ma : ℚ) * (2 : ℚ) ^ ea < 360)
    (hl : pass.los_az = gdouble.finite false ml el) (hl360 : (ml : ℚ) * (2 : ℚ) ^ el < 360) :
    ∃ (Na Nl : Nat) (da dl : String),
      |(ma : ℚ) * (2 : ℚ) ^ ea * (10 : ℚ) ^ 2 - (Na : ℚ)| ≤ 1 / 2
      ∧ |(ml : ℚ) * (2 : ℚ) ^ el * (10 : ℚ) ^ 2 - (Nl : ℚ)| ≤ 1 / 2
      ∧ da = Nat.repr (Na / 100) ++ "." ++ two_digits (Na % 100)
      ∧ dl = Nat.repr (Nl / 100) ++ "." ++ two_digits (Nl % 100)
      ∧ da.length ≤ 6 ∧ dl.length ≤ 6
      ∧ save_pass_ical_data env pass qth sat
          = (duration_seconds pass).map (fun T =>
              ical_header ++ event_head env qth sat pass
              ++ "DESCRIPTION:" ++ "Duration: " ++ two_digits ((T / 60) % 60) ++ ":"
              ++ two_digits (T % 60) ++ "\\n"
              ++ ("AOS Azimuth" ++ ":" ++ "  "
                  ++ String.mk (List.replicate (6 - da.length) ' ') ++ da) ++ "\\n"
              ++ ("LOS Azimuth" ++ ":" ++ "  "
                  ++ String.mk (List.replicate (6 - dl.length) ' ') ++ dl) ++ "\\n"
              ++ "\n" ++ "END:VEVENT\n" ++ ical_footer)
      ∧ vevent_block env qth sat pass
          = (duration_seconds pass).map (fun T =>
              event_head env qth sat pass
              ++ "DESCRIPTION:" ++ "Duration: " ++ two_digits ((T / 60) % 60) ++ ":"
              ++ two_digits (T % 60) ++ "\\n"
              ++ ("AOS Azimuth" ++ ":" ++ "  "
                  ++ String.mk (List.replicate (6 - da.length) ' ') ++ da) ++ "\\n"
              ++ ("LOS Azimuth" ++ ":" ++ "  "
                  ++ String.mk (List.replicate (6 - dl.length) ' ') ++ dl) ++ "\\n"
              ++ "\n" ++ "END:VEVENT\n")
      ∧ (pass.aos_az = gdouble.ofNat 45 →
          "AOS Azimuth" ++ ":" ++ "  " ++ String.mk (List.replicate (6 - da.length) ' ') ++ da
            = "AOS Azimuth:   45.00") := by
  have fa : fmt_wf 6 2 pass.aos_az
      = String.mk (List.replicate
          (6 - (Nat.repr (scaled_decimal ma ea 2 / 100) ++ "."
            ++ two_digits (scaled_decimal ma ea 2 % 100)).length) ' ')
        ++ (Nat.repr (scaled_decimal ma ea 2 / 100) ++ "."
            ++ two_digits (scaled_decimal ma ea 2 % 100)) := by
    rw [ha, fmt_wf, fmt_f_two_finite, pad_left]
    simp only [Bool.false_eq_true, if_false, String.append_assoc]
    rfl
  have fl : fmt_wf 6 2 pass.los_az
      = String.mk (List.replicate
          (6 - (Nat.repr (scaled_decimal ml el 2 / 100) ++ "."
            ++ two_digits (scaled_decimal ml el 2 % 100)).length) ' ')
        ++ (Nat.repr (scaled_decimal ml el 2 / 100) ++ "."
            ++ two_digits (scaled_decimal ml el 2 % 100)) := by
    rw [hl, fmt_wf, fmt_f_two_finite, pad_left]
    simp only [Bool.false_eq_true, if_false, String.append_assoc]
    rfl
  have ea1 : ("AOS Azimuth:  " : String) = "AOS Azimuth" ++ ":" ++ "  " := rfl
  have el1 : ("LOS Azimuth:  " : String) = "LOS Azimuth" ++ ":" ++ "  " := rfl
  refine ⟨scaled_decimal ma ea 2, scaled_decimal ml el 2, _, _,
    (scaled_decimal_nearest ma ea 2).1, (scaled_decimal_nearest ml el 2).1, rfl, rfl,
    fmt_two_length_le ma ea ha360, fmt_two_length_le ml el hl360, ?_, ?_, ?_⟩
  · rw [pass_data_eq]
    apply option_map_congr
    intro T
    simp only [event_text, event_head, description_line_two_digits, fa, fl, ea1, el1,
      String.append_assoc]
  · rw [vevent_block_eq]
    apply option_map_congr
    intro T
    simp only [event_text, event_head, description_line_two_digits, fa, fl, ea1, el1,
      String.append_assoc]
  · intro h45
    rw [ha] at h45
    have hm : ma = 45 ∧ ea = 0 := by
      have h := h45
      simp only [gdouble.ofNat] at h
      have e45 : round_binary64 false 45 0 = gdouble.finite false 45 0 := by decide
      rw [e45] at h
      injection h with _ h2 h3
      exact ⟨h2, h3⟩
    obtain ⟨rfl, rfl⟩ := hm
    decide

/-- C9 as amended, at the sample pass (azimuths 45.0 and 310.5). -/
theorem azimuth_parts_right_aligned_witness :
    sample_pass.aos_az = gdouble.finite false 45 0
    ∧ ((45 : Nat) : ℚ) * (2 : ℚ) ^ (0 : Int) < 360
    ∧ sample_pass.los_az = gdouble.finite false 5462373766791168 (-44)
    ∧ ((5462373766791168 : Nat) : ℚ) * (2 : ℚ) ^ (-44 : Int) < 360
    ∧ ∃ da dl : String,
        da.length ≤ 6 ∧ dl.length ≤ 6
        ∧ save_pass_ical_data sample_env sample_pass sample_qth "ISS"
          = (duration_seconds sample_pass).map (fun T =>
              ical_header ++ event_head sample_env sample_qth "ISS" sample_pass
              ++ "DESCRIPTION:" ++ "Duration: " ++ two_digits ((T / 60) % 60) ++ ":"
              ++ two_digits (T % 60) ++ "\\n"
              ++ ("AOS Azimuth" ++ ":" ++ "  "
                  ++ String.mk (List.replicate (6 - da.length) ' ') ++ da) ++ "\\n"
              ++ ("LOS Azimuth" ++ ":" ++ "  "
                  ++ String.mk (List.replicate (6 - dl.length) ' ') ++ dl) ++ "\\n"
              ++ "\n" ++ "END:VEVENT\n" ++ ical_footer)
        ∧ "AOS Azimuth" ++ ":" ++ "  " ++ String.mk (List.replicate (6 - da.length) ' ') ++ da
            = "AOS Azimuth:   45.00" := by
  have h1 : ((45 : Nat) : ℚ) * (2 : ℚ) ^ (0 : Int) < 360 := by norm_num
  have h2 : ((5462373766791168 : Nat) : ℚ) * (2 : ℚ) ^ (-44 : Int) < 360 := by norm_num
  obtain ⟨_, _, da, dl, _, _, _, _, l1, l2, hdoc, _, hex⟩ :=
    azimuth_parts_right_aligned sample_env sample_pass sample_qth "ISS" 45 0
      5462373766791168 (-44) (by decide) h1 (by decide) h2
  exact ⟨by decide, h1, by decide, h2, da, dl, l1, l2, hdoc, hex (by decide)⟩

/-- C10: no line is folded.  When the label holds no line break (and the time
stamps of `daynum_to_str` hold none), the text built by `save_passes_ical_exec`
for `n` passes has exactly `4 + 7 * n` lines: the three header lines, then for
each pass in order the seven lines `BEGIN:VEVENT`, `DTSTART`, `DTEND`,
`SUMMARY`, `UID`, `DESCRIPTION`, `END:VEVENT`, each property whole on its line,
then `END:VCALENDAR`; this holds however long the label is, also when it makes
the `SUMMARY` and `UID` lines longer than 75 characters. -/
theorem passes_document_lines_are_not_folded (env : Env) (passes : List pass_t) (qth : qth_t)
    (sat : String) (doc : String) (hsat : ¬ has_line_break sat)
    (hts : ∀ fmt t, ¬ has_line_break (env.daynum_to_str fmt t))
    (hdoc : save_passes_ical_data env passes qth sat = some doc) :
    (text_lines doc).length = 4 + 7 * passes.length
    ∧ text_lines doc
        = ["BEGIN:VCALENDAR", "VERSION:2.0", "CALSCALE:GREGORIAN"]
          ++ passes.flatMap (fun pass =>
              ["BEGIN:VEVENT",
               "DTSTART" ++ timezone_part env ++ env.daynum_to_str "%Y%m%dT%H%M%S" pass.aos,
               "DTEND" ++ timezone_part env ++ env.daynum_to_str "%Y%m%dT%H%M%S" pass.los,
               "SUMMARY:" ++ sat ++ " [" ++ fmt_f 0 pass.max_el ++ "°]",
               "UID:" ++ sat ++ fmt_d pass.orbit ++ env.daynum_to_str "%Y%m%d%H" pass.aos
                 ++ "@" ++ fmt_f 6 qth.lat ++ fmt_f 6 qth.lon,
               description_line pass ((duration_seconds pass).getD 0),
               "END:VEVENT"])
          ++ ["END:VCALENDAR"]
    ∧ (75 < sat.length → ∀ pass : pass_t,
        75 < ("SUMMARY:" ++ sat ++ " [" ++ fmt_f 0 pass.max_el ++ "°]").length
        ∧ 75 < ("UID:" ++ sat ++ fmt_d pass.orbit ++ env.daynum_to_str "%Y%m%d%H" pass.aos
                 ++ "@" ++ fmt_f 6 qth.lat ++ fmt_f 6 qth.lon).length) := by
  rw [passes_data_eq] at hdoc
  cases hb : List.mapM (vevent_block env qth sat) passes with
  | none => rw [hb] at hdoc; cases hdoc
  | some blocks =>
    rw [hb] at hdoc
    cases hdoc
    obtain ⟨hblocks, _⟩ := mapM_blocks_some env qth sat passes blocks hb
    have hlines := passes_document_lines env passes qth sat
      (fun pass => (duration_seconds pass).getD 0) hsat hts
    rw [← hblocks] at hlines
    refine ⟨?_, hlines, ?_⟩
    · rw [hlines, List.length_append, List.length_append,
        length_flatMap_seven
          (fun pass => event_lines env qth sat pass ((duration_seconds pass).getD 0))
          (fun _ => rfl)]
      simp only [List.length_cons, List.length_nil]
      omega
    · intro hlong pass
      simp only [String.length_append]
      omega

/-- C10 at two sample passes with a label of 80 characters: 18 lines. -/
theorem passes_document_lines_are_not_folded_witness :
    ¬ has_line_break sample_long_label
    ∧ (∀ fmt t, ¬ has_line_break (sample_env.daynum_to_str fmt t))
    ∧ 75 < sample_long_label.length
    ∧ ∃ doc : String,
        save_passes_ical_data sample_env [sample_pass, sample_pass_other] sample_qth
          sample_long_label = some doc
        ∧ (text_lines doc).length = 4 + 7 * 2
        ∧ 75 < ("SUMMARY:" ++ sample_long_label ++ " [" ++ fmt_f 0 sample_pass.max_el
            ++ "°]").length := by
  have hs : ¬ has_line_break sample_long_label := by decide
  have hsome : (save_passes_ical_data sample_env [sample_pass, sample_pass_other] sample_qth
      sample_long_label).isSome = true := by
    rw [passes_data_eq, Option.isSome_map', mapM_blocks_isSome]
    decide
  obtain ⟨doc, hdoc⟩ := Option.isSome_iff_exists.mp hsome
  have h := passes_document_lines_are_not_folded sample_env [sample_pass, sample_pass_other]
    sample_qth sample_long_label doc hs sample_env_no_line_break hdoc
  exact ⟨hs, sample_env_no_line_break, by decide, doc, hdoc, h.1, (h.2.2 (by decide) sample_pass).1⟩

/-- C11 as it is worded fails at the sample pass that ends a minute before it
starts: `los <= aos` holds, the product `(los - aos)*86400` is the double -60,
and its conversion to `guint` is not one that ISO C defines, so the conversion
is not defined for every negative difference.  The code goes on all the same:
in the x86-64 build the second count is `2^32 - 60 = 4294967236`, the
extraction gives 27 minutes and 16 seconds, and both encoders build the whole
text, whose description starts with `Duration: 27:16`. -/
theorem negative_duration_counterexample :
    sample_pass_reversed.los.le sample_pass_reversed.aos = true
    ∧ duration_product sample_pass_reversed = gdouble.finite true 8444249301319680 (-47)
    ∧ (duration_product sample_pass_reversed).value = -60
    ∧ (duration_product sample_pass_reversed).guint_cast_defined = false
    ∧ ¬ (∀ pass : pass_t, pass.los.le pass.aos = true →
          (duration_product pass).guint_cast_defined = true)
    ∧ duration_seconds sample_pass_reversed = some 4294967236
    ∧ (4294967236 : Nat) = 2 ^ 32 - 60
    ∧ guint_sub 4294967236 (guint_mul 3600 (4294967236 / 3600)) / 60 = 27
    ∧ guint_sub (guint_sub 4294967236 (guint_mul 3600 (4294967236 / 3600)))
        (guint_mul 60 (guint_sub 4294967236 (guint_mul 3600 (4294967236 / 3600)) / 60)) = 16
    ∧ save_pass_ical_data sample_env sample_pass_reversed sample_qth "ISS"
        = some (ical_header ++ event_head sample_env sample_qth "ISS" sample_pass_reversed
            ++ "DESCRIPTION:" ++ "Duration: 27:16" ++ "\\n"
            ++ "AOS Azimuth:  " ++ fmt_wf 6 2 sample_pass_reversed.aos_az ++ "\\n"
            ++ "LOS Azimuth:  " ++ fmt_wf 6 2 sample_pass_reversed.los_az ++ "\\n" ++ "\n"
            ++ "END:VEVENT\n" ++ ical_footer)
    ∧ save_passes_ical_data sample_env [sample_pass_reversed] sample_qth "ISS"
        = save_pass_ical_data sample_env sample_pass_reversed sample_qth "ISS" := by
  have hp : duration_product sample_pass_reversed
      = gdouble.finite true 8444249301319680 (-47) := by decide
  have hdef : (duration_product sample_pass_reversed).guint_cast_defined = false := by
    rw [hp]; decide
  refine ⟨by decide, hp, ?_, hdef, ?_, by decide, by norm_num, by decide, by decide,
    by decide, by decide⟩
  · rw [hp]
    simp only [gdouble.value, if_true]
    norm_num
  · intro h
    have h1 := h sample_pass_reversed (by decide)
    rw [hdef] at h1
    exact Bool.false_ne_true h1

/-- C11 as amended: for every pass with `los <= aos` the cast gives a second
count `T` below `2^32`, the extraction of the code gives minutes and seconds
below 60, and both encoders build the whole text (header, the block with its
five properties of which the description starts with `Duration: MM:SS`, footer)
and, with the ICS selector, hand it to `save_to_file`.  A finite product
`(los - aos)*86400` of magnitude `mp * 2^ep` is zero or negative; its cast is
one that ISO C defines exactly when the magnitude is below 1, and then `T` is 0;
for a magnitude from 1 up to `2^63` the second count is that of the x86-64
build, the magnitude cut to a whole number, negated and reduced modulo `2^32`;
for a larger magnitude and for a product that is not finite it is 0. -/
theorem degenerate_pass_builds_document (env : Env) (pass : pass_t) (qth : qth_t)
    (savedir savefile sat : String) (hle : pass.los.le pass.aos = true) :
    ∃ T : Nat,
      duration_seconds pass = some T
      ∧ T < 2 ^ 32
      ∧ guint_sub T (guint_mul 3600 (T / 3600)) / 60 = (T / 60) % 60
      ∧ guint_sub (guint_sub T (guint_mul 3600 (T / 3600)))
          (guint_mul 60 (guint_sub T (guint_mul 3600 (T / 3600)) / 60)) = T % 60
      ∧ (T / 60) % 60 < 60 ∧ T % 60 < 60
      ∧ save_pass_ical_data env pass qth sat
          = some (ical_header ++ "BEGIN:VEVENT\n" ++ dtstart_line env pass ++ "\n"
              ++ dtend_line env pass ++ "\n" ++ summary_line sat pass ++ "\n"
              ++ uid_line env qth sat pass ++ "\n"
              ++ "DESCRIPTION:" ++ "Duration: " ++ two_digits ((T / 60) % 60) ++ ":"
              ++ two_digits (T % 60) ++ "\\n"
              ++ "AOS Azimuth:  " ++ fmt_wf 6 2 pass.aos_az ++ "\\n"
              ++ "LOS Azimuth:  " ++ fmt_wf 6 2 pass.los_az ++ "\\n" ++ "\n"
              ++ "END:VEVENT\n" ++ ical_footer)
      ∧ save_passes_ical_data env [pass] qth sat = save_pass_ical_data env pass qth sat
      ∧ (∃ doc : String, save_pass_ical_data env pass qth sat = some doc
          ∧ save_pass_ical_exec env pass qth savedir savefile SAVE_FORMAT_ICS sat
              = some (save_to_file env (ics_file_name env savedir savefile) doc)
          ∧ save_passes_ical_exec env [pass] qth savedir savefile SAVE_FORMAT_ICS sat
              = some (save_to_file env (ics_file_name env savedir savefile) doc))
      ∧ (∀ (np : Bool) (mp : Nat) (ep : Int),
          duration_product pass = gdouble.finite np mp ep →
          (mp = 0 ∨ np = true)
          ∧ ((duration_product pass).guint_cast_defined = true ↔ (mp : ℚ) * (2 : ℚ) ^ ep < 1)
          ∧ ((mp : ℚ) * (2 : ℚ) ^ ep < 1 → T = 0)
          ∧ ((mp : ℚ) * (2 : ℚ) ^ ep < 2 ^ 63 →
              (T : Int) = (-(⌊(mp : ℚ) * (2 : ℚ) ^ ep⌋₊ : Int)) % 2 ^ 32)
          ∧ ((2 : ℚ) ^ 63 ≤ (mp : ℚ) * (2 : ℚ) ^ ep → T = 0))
      ∧ ((duration_product pass).is_finite = false → T = 0)
      ∧ ((duration_product pass).guint_cast_defined = true →
          T = 0 ∧ "Duration: " ++ two_digits ((T / 60) % 60) ++ ":" ++ two_digits (T % 60)
            = "Duration: 00:00") := by
  have hcast : duration_seconds pass = (duration_product pass).to_guint := rfl
  obtain ⟨T, hT⟩ := to_guint_total (duration_product pass)
  rw [← hcast] at hT
  have hlt32 := duration_seconds_lt pass T hT
  obtain ⟨e1, e2, e3⟩ := hms_extraction T hlt32
  have hm : (T / 60) % 60 < 60 := Nat.mod_lt _ (by norm_num)
  have hs : T % 60 < 60 := Nat.mod_lt _ (by norm_num)
  have hdoc : save_pass_ical_data env pass qth sat
      = some (ical_header ++ "BEGIN:VEVENT\n" ++ dtstart_line env pass ++ "\n"
          ++ dtend_line env pass ++ "\n" ++ summary_line sat pass ++ "\n"
          ++ uid_line env qth sat pass ++ "\n"
          ++ "DESCRIPTION:" ++ "Duration: " ++ two_digits ((T / 60) % 60) ++ ":"
          ++ two_digits (T % 60) ++ "\\n"
          ++ "AOS Azimuth:  " ++ fmt_wf 6 2 pass.aos_az ++ "\\n"
          ++ "LOS Azimuth:  " ++ fmt_wf 6 2 pass.los_az ++ "\\n" ++ "\n"
          ++ "END:VEVENT\n" ++ ical_footer) := by
    rw [pass_data_eq, hT, Option.map_some']
    simp only [event_text, description_line, fmt_02d_two_digits _ hm,
      fmt_02d_two_digits _ hs, String.append_assoc]
  have hsame := (pass_data_eq_passes_data env pass qth sat).symm
  have hfin : ∀ (np : Bool) (mp : Nat) (ep : Int),
      duration_product pass = gdouble.finite np mp ep →
      (mp = 0 ∨ np = true)
      ∧ ((duration_product pass).guint_cast_defined = true ↔ (mp : ℚ) * (2 : ℚ) ^ ep < 1)
      ∧ ((mp : ℚ) * (2 : ℚ) ^ ep < 1 → T = 0)
      ∧ ((mp : ℚ) * (2 : ℚ) ^ ep < 2 ^ 63 →
          (T : Int) = (-(⌊(mp : ℚ) * (2 : ℚ) ^ ep⌋₊ : Int)) % 2 ^ 32)
      ∧ ((2 : ℚ) ^ 63 ≤ (mp : ℚ) * (2 : ℚ) ^ ep → T = 0) := by
    intro np mp ep hp
    have hsign := product_not_positive_of_le pass np mp ep hle hp
    have hT' := hT
    rw [hcast, hp] at hT'
    rw [hp]
    exact ⟨hsign, to_guint_not_positive np mp ep T hsign hT'⟩
  refine ⟨T, hT, hlt32, ?_, ?_, hm, hs, hdoc, hsame, ?_, hfin, ?_, ?_⟩
  · rw [e1, e2]
  · rw [e1, e3]
  · refine ⟨_, hdoc, ?_, ?_⟩
    · rw [pass_exec_ics, hdoc, Option.map_some']
    · rw [passes_exec_ics, hsame, hdoc, Option.map_some']
  · intro hnf
    have h0 := to_guint_not_finite _ hnf
    rw [← hcast, hT] at h0
    exact Option.some.inj h0
  · intro hdef
    have hT0 : T = 0 := by
      cases hx : duration_product pass with
      | finite np mp ep =>
        obtain ⟨_, k1, k2, _⟩ := hfin np mp ep hx
        exact k2 (k1.mp hdef)
      | inf s => rw [hx] at hdef; simp [gdouble.guint_cast_defined] at hdef
      | nan s => rw [hx] at hdef; simp [gdouble.guint_cast_defined] at hdef
    subst hT0
    exact ⟨rfl, by decide⟩

/-- C11 as amended, at the sample pass that ends a minute before it starts (the
product is -60, the second count `2^32 - 60` and the description starts with
`Duration: 27:16`), at the sample pass that ends half a second before it starts
(the product is -0.5, the cast is one that ISO C defines, `Duration: 00:00`)
and at the sample pass of no length. -/
theorem degenerate_pass_builds_document_witness :
    (sample_pass_reversed.los.le sample_pass_reversed.aos = true
      ∧ ∃ T : Nat, duration_seconds sample_pass_reversed = some T
        ∧ T = 4294967236
        ∧ (T : Int) = (-(⌊((8444249301319680 : Nat) : ℚ) * (2 : ℚ) ^ (-47 : Int)⌋₊ : Int))
            % 2 ^ 32
        ∧ save_pass_ical_data sample_env sample_pass_reversed sample_qth "ISS"
            = some (ical_header ++ "BEGIN:VEVENT\n"
                ++ dtstart_line sample_env sample_pass_reversed ++ "\n"
                ++ dtend_line sample_env sample_pass_reversed ++ "\n"
                ++ summary_line "ISS" sample_pass_reversed ++ "\n"
                ++ uid_line sample_env sample_qth "ISS" sample_pass_reversed ++ "\n"
                ++ "DESCRIPTION:" ++ "Duration: " ++ two_digits ((T / 60) % 60) ++ ":"
                ++ two_digits (T % 60) ++ "\\n"
                ++ "AOS Azimuth:  " ++ fmt_wf 6 2 sample_pass_reversed.aos_az ++ "\\n"
                ++ "LOS Azimuth:  " ++ fmt_wf 6 2 sample_pass_reversed.los_az ++ "\\n"
                ++ "\n" ++ "END:VEVENT\n" ++ ical_footer)
        ∧ "Duration: " ++ two_digits ((T / 60) % 60) ++ ":" ++ two_digits (T % 60)
            = "Duration: 27:16")
    ∧ (sample_pass_half_second_back.los.le sample_pass_half_second_back.aos = true
      ∧ duration_product sample_pass_half_second_back
          = gdouble.finite true 9007199254740992 (-54)
      ∧ (duration_product sample_pass_half_second_back).guint_cast_defined = true
      ∧ ∃ T : Nat, duration_seconds sample_pass_half_second_back = some T
        ∧ T = 0
        ∧ "Duration: " ++ two_digits ((T / 60) % 60) ++ ":" ++ two_digits (T % 60)
            = "Duration: 00:00")
    ∧ (sample_pass_instant.los.le sample_pass_instant.aos = true
      ∧ (duration_product sample_pass_instant).guint_cast_defined = true
      ∧ ∃ T : Nat, duration_seconds sample_pass_instant = some T ∧ T = 0) := by
  have hr := degenerate_pass_builds_document sample_env sample_pass_reversed sample_qth
    "/tmp" "iss" "ISS" (by decide)
  have hh := degenerate_pass_builds_document sample_env sample_pass_half_second_back
    sample_qth "/tmp" "iss" "ISS" (by decide)
  have hi := degenerate_pass_builds_document sample_env sample_pass_instant sample_qth
    "/tmp" "iss" "ISS" (by decide)
  obtain ⟨T, r1, _, _, _, _, _, r7, _, _, r10, _, _⟩ := hr
  obtain ⟨Th, h1, _, _, _, _, _, _, _, _, _, _, h12⟩ := hh
  obtain ⟨Ti, i1, _, _, _, _, _, _, _, _, _, _, i12⟩ := hi
  have hpr : duration_product sample_pass_reversed
      = gdouble.finite true 8444249301319680 (-47) := by decide
  have hT : T = 4294967236 := by
    have h : duration_seconds sample_pass_reversed = some 4294967236 := by decide
    rw [h] at r1
    exact (Option.some.inj r1).symm
  have hdh : (duration_product sample_pass_half_second_back).guint_cast_defined = true := by
    decide
  have hdi : (duration_product sample_pass_instant).guint_cast_defined = true := by decide
  refine ⟨⟨by decide, T, r1, hT, (r10 true 8444249301319680 (-47) hpr).2.2.2.1 (by norm_num),
      r7, ?_⟩,
    ⟨by decide, by decide, hdh, Th, h1, (h12 hdh).1, (h12 hdh).2⟩,
    ⟨by decide, hdi, Ti, i1, (i12 hdi).1⟩⟩
  rw [hT]
  decide

/-- C13: the two encoders agree.  For every pass `P`, observer, time-zone mode
and label, the text built by `save_pass_ical_exec` for `P` is the text built by
`save_passes_ical_exec` for the list `[P]` (both undefined together when the
second count is), and with the ICS selector and the same destination both hand
the same file name and the same text to `save_to_file`, so they perform the
same actions. -/
theorem single_and_list_encoders_agree (env : Env) (pass : pass_t) (qth : qth_t)
    (savedir savefile sat : String) :
    save_pass_ical_data env pass qth sat = save_passes_ical_data env [pass] qth sat
    ∧ save_pass_ical_exec env pass qth savedir savefile SAVE_FORMAT_ICS sat
        = (save_pass_ical_data env pass qth sat).map
            (save_to_file env (savedir ++ env.dir_separator ++ savefile ++ ".ics"))
    ∧ save_passes_ical_exec env [pass] qth savedir savefile SAVE_FORMAT_ICS sat
        = (save_passes_ical_data env [pass] qth sat).map
            (save_to_file env (savedir ++ env.dir_separator ++ savefile ++ ".ics"))
    ∧ save_pass_ical_exec env pass qth savedir savefile SAVE_FORMAT_ICS sat
        = save_passes_ical_exec env [pass] qth savedir savefile SAVE_FORMAT_ICS sat := by
  have hdata := pass_data_eq_passes_data env pass qth sat
  have h1 := pass_exec_ics env pass qth savedir savefile sat
  have h2 := passes_exec_ics env [pass] qth savedir savefile sat
  refine ⟨hdata, h1, h2, ?_⟩
  rw [h1, h2, hdata]

/-- C12: with the ICS selector each encoder calls `save_to_file` once, with the
name `savedir`, separator, `savefile`, `.ics` and with the whole text it built.
One call of `save_to_file` creates the file once and writes at most once, under
that name and with that text.  When creating fails, the error is logged and
shown with the message of the system, and nothing is written; when creating
succeeds and writing fails, the error is logged and shown with the message of
the system; when both succeed no error is logged or shown and the count of
written characters is logged. -/
theorem export_calls_sink_once_and_reports (env : Env) (pass : pass_t) (passes : List pass_t)
    (qth : qth_t) (savedir savefile sat : String) (doc docs : String)
    (hdoc : save_pass_ical_data env pass qth sat = some doc)
    (hdocs : save_passes_ical_data env passes qth sat = some docs) :
    save_pass_ical_exec env pass qth savedir savefile SAVE_FORMAT_ICS sat
        = some (save_to_file env (savedir ++ env.dir_separator ++ savefile ++ ".ics") doc)
    ∧ save_passes_ical_exec env passes qth savedir savefile SAVE_FORMAT_ICS sat
        = some (save_to_file env (savedir ++ env.dir_separator ++ savefile ++ ".ics") docs)
    ∧ ∀ fname text : String,
        (save_to_file env fname text).count (Act.g_io_channel_new_file fname) = 1
        ∧ (∀ f, Act.g_io_channel_new_file f ∈ save_to_file env fname text → f = fname)
        ∧ (save_to_file env fname text).count (Act.g_io_channel_write_chars fname text) ≤ 1
        ∧ (∀ f d, Act.g_io_channel_write_chars f d ∈ save_to_file env fname text →
            f = fname ∧ d = text)
        ∧ (∀ message, env.new_file fname = some message →
            save_to_file env fname text
              = [Act.g_io_channel_new_file fname,
                 Act.sat_log_log sat_log_level.SAT_LOG_LEVEL_ERROR
                   ("save_to_file: Could not create file " ++ fname ++ " (" ++ message ++ ")"),
                 Act.error_dialog ("Could not create file " ++ fname ++ "\n\n" ++ message)])
        ∧ (∀ message, env.new_file fname = none →
            env.write_chars fname text = Except.error message →
            save_to_file env fname text
              = [Act.g_io_channel_new_file fname,
                 Act.g_io_channel_write_chars fname text,
                 Act.sat_log_log sat_log_level.SAT_LOG_LEVEL_ERROR
                   ("save_to_file: An error occurred while saving data to " ++ fname
                     ++ " (" ++ message ++ ")"),
                 Act.error_dialog ("An error occurred while saving data to " ++ fname
                     ++ "\n\n" ++ message),
                 Act.g_io_channel_shutdown fname])
        ∧ (∀ count, env.new_file fname = none →
            env.write_chars fname text = Except.ok count →
            save_to_file env fname text
              = [Act.g_io_channel_new_file fname,
                 Act.g_io_channel_write_chars fname text,
                 Act.sat_log_log sat_log_level.SAT_LOG_LEVEL_DEBUG
                   ("save_to_file: Written " ++ fmt_d (count : Int) ++ " characters to "
                     ++ fname),
                 Act.g_io_channel_shutdown fname]) := by
  have h1 := pass_exec_ics env pass qth savedir savefile sat
  have h2 := passes_exec_ics env passes qth savedir savefile sat
  rw [hdoc] at h1
  rw [hdocs] at h2
  refine ⟨h1, h2, ?_⟩
  intro fname text
  unfold save_to_file
  cases hn : env.new_file fname with
  | some message => simp [List.count_cons]
  | none =>
    cases hw : env.write_chars fname text with
    | error message => simp [List.count_cons]
    | ok count => simp [List.count_cons]

/-- C12 at the sample pass on three file systems: one where all goes well, one
where the file cannot be created, one where writing fails. -/
theorem export_calls_sink_once_and_reports_witness :
    save_pass_ical_data sample_env sample_pass sample_qth "ISS" = some sample_document
    ∧ save_passes_ical_data sample_env [sample_pass] sample_qth "ISS" = some sample_document
    ∧ save_pass_ical_exec sample_env sample_pass sample_qth "/tmp" "iss" SAVE_FORMAT_ICS "ISS"
        = some [Act.g_io_channel_new_file "/tmp/iss.ics",
                Act.g_io_channel_write_chars "/tmp/iss.ics" sample_document,
                Act.sat_log_log sat_log_level.SAT_LOG_LEVEL_DEBUG
                  "save_to_file: Written 282 characters to /tmp/iss.ics",
                Act.g_io_channel_shutdown "/tmp/iss.ics"]
    ∧ save_pass_ical_exec sample_env_create_fails sample_pass sample_qth "/tmp" "iss"
          SAVE_FORMAT_ICS "ISS"
        = some [Act.g_io_channel_new_file "/tmp/iss.ics",
                Act.sat_log_log sat_log_level.SAT_LOG_LEVEL_ERROR
                  "save_to_file: Could not create file /tmp/iss.ics (Permission denied)",
                Act.error_dialog "Could not create file /tmp/iss.ics\n\nPermission denied"]
    ∧ save_passes_ical_exec sample_env_write_fails [sample_pass] sample_qth "/tmp" "iss"
          SAVE_FORMAT_ICS "ISS"
        = some [Act.g_io_channel_new_file "/tmp/iss.ics",
                Act.g_io_channel_write_chars "/tmp/iss.ics" sample_document,
                Act.sat_log_log sat_log_level.SAT_LOG_LEVEL_ERROR
                  "save_to_file: An error occurred while saving data to /tmp/iss.ics (No space left on device)",
                Act.error_dialog
                  "An error occurred while saving data to /tmp/iss.ics\n\nNo space left on device",
                Act.g_io_channel_shutdown "/tmp/iss.ics"] := by
  have hd : save_pass_ical_data sample_env sample_pass sample_qth "ISS"
      = some sample_document := by decide
  have hds : save_passes_ical_data sample_env [sample_pass] sample_qth "ISS"
      = some sample_document := by decide
  have hok := export_calls_sink_once_and_reports sample_env sample_pass [sample_pass]
    sample_qth "/tmp" "iss" "ISS" sample_document sample_document hd hds
  have hcreate := export_calls_sink_once_and_reports sample_env_create_fails sample_pass
    [sample_pass] sample_qth "/tmp" "iss" "ISS" sample_document sample_document
    (by decide) (by decide)
  have hwrite := export_calls_sink_once_and_reports sample_env_write_fails sample_pass
    [sample_pass] sample_qth "/tmp" "iss" "ISS" sample_document sample_document
    (by decide) (by decide)
  have eok := (hok.2.2 ("/tmp" ++ sample_env.dir_separator ++ "iss" ++ ".ics")
    sample_document).2.2.2.2.2.2 282 rfl rfl
  have ecreate := (hcreate.2.2 ("/tmp" ++ sample_env_create_fails.dir_separator ++ "iss"
    ++ ".ics") sample_document).2.2.2.2.1 "Permission denied" rfl
  have ewrite := (hwrite.2.2 ("/tmp" ++ sample_env_write_fails.dir_separator ++ "iss"
    ++ ".ics") sample_document).2.2.2.2.2.1 "No space left on device" rfl rfl
  exact ⟨hd, hds, hok.1.trans (congrArg some eok), hcreate.1.trans (congrArg some ecreate),
    hwrite.2.1.trans (congrArg some ewrite)⟩

end SaveIcal
